import Mathlib

/-!
Verification of the Corentin coroutine scheduler (a Bevy-based cooperative
coroutine executor written in Rust) against its natural-language specification.

The repository contains two snapshots of the scheduler:
* the "old" executor (`src/executor/mod.rs`, `src/executor/run_ctx.rs`) with its
  intra-tick write table and parent (ancestry) table, and
* the "rework" executor (`src/rework/executor/mod.rs`) with first/all groups,
  scope ownership and a generational id allocator (`src/id_alloc.rs`).

Every definition below is a shallow embedding of a specific Rust item, named
after it.  Rust `HashMap`s become association lists, `tinyset::SetUsize` /
`SetU64` become lists used as sets, panics become `Except.error`, and the
unbounded recursion of `Executor::run` / `Executor::cancel` becomes fuel-indexed
recursion (enough fuel reproduces the Rust behaviour exactly; fuel exhaustion is
modelled as an error distinct from any real outcome).
-/

namespace Corentin

/-- `(Entity, ComponentId)` pair: the addressing unit of the write table and of
`WaitingReason::Changed`. -/
abbrev Loc := Nat × Nat

/-! ### Association-list helpers (model of `bevy::utils::HashMap`) -/

/-- `HashMap::get`. -/
def alookup {κ α : Type} [DecidableEq κ] (k : κ) : List (κ × α) → Option α
  | [] => none
  | (k', v) :: rest => if k = k' then some v else alookup k rest

/-- `HashMap::remove` (drops the key's entry — keys are unique in a
`HashMap`, so dropping every match is the same operation). -/
def aremove {κ α : Type} [DecidableEq κ] (k : κ) (m : List (κ × α)) :
    List (κ × α) :=
  m.filter (fun e => ¬ e.1 = k)

/-- `HashMap::insert` (replaces any previous binding). -/
def ainsert {κ α : Type} [DecidableEq κ] (k : κ) (v : α) (m : List (κ × α)) :
    List (κ × α) :=
  (k, v) :: aremove k m

/-- `HashMap::contains_key`. -/
def acontains {κ α : Type} [DecidableEq κ] (k : κ) (m : List (κ × α)) : Bool :=
  (alookup k m).isSome

/-! ### Sets of small integers (model of `tinyset::SetUsize`) -/

/-- `SetUsize::insert`: returns the new set and `true` iff the value was not
already present (the Rust return value). -/
def nsInsert (x : Nat) (s : List Nat) : List Nat × Bool :=
  if s.contains x then (s, false) else (s ++ [x], true)

/-- `SetUsize::extend`. -/
def nsExtend (s other : List Nat) : List Nat :=
  other.foldl (fun acc x => (nsInsert x acc).1) s

/-- `SetUsize::remove`. -/
def nsRemove (x : Nat) (s : List Nat) : List Nat :=
  s.filter (fun y => y ≠ x)

/-! ### `src/id_alloc.rs` — generation-checked coroutine identities -/

/-- `id_alloc::Id`: a generation-checked identity (two `u32` halves). -/
structure Id where
  generation : Nat
  index : Nat
  deriving DecidableEq, Repr

/-- `Id::to_bits`: `(self.generation as u64) << 32 | self.index as u64`.
The `u32 → u64` casts are value-preserving, so the fields appear unchanged. -/
def Id.to_bits (self : Id) : Nat :=
  self.generation <<< 32 ||| self.index

/-- `Id::from_bits`: `generation: (bits >> 32) as u32, index: bits as u32`.
The `u64 → u32` casts truncate, hence the `% 2 ^ 32`. -/
def Id.from_bits (bits : Nat) : Id :=
  { generation := (bits >>> 32) % 2 ^ 32, index := bits % 2 ^ 32 }

/-! ### `src/executor/run_ctx.rs` — per-tick dependency tracking (old executor) -/

namespace RunCtx

/-- `run_ctx::ParentTable`: each node stores the set of its ancestors
(`table: Vec<SetUsize>`). -/
structure ParentTable where
  table : List (List Nat)
  deriving Repr

/-- `ParentTable::add_child`: clone the parent's ancestor set, add the parent
itself, push it as a fresh node, return the new node's index. -/
def ParentTable.add_child (self : ParentTable) (parent : Nat) :
    ParentTable × Nat :=
  let parents := (nsInsert parent (self.table.getD parent [])).1
  let table := self.table ++ [parents]
  (⟨table⟩, table.length - 1)

/-- `ParentTable::add_root`: push an empty ancestor set. -/
def ParentTable.add_root (self : ParentTable) : ParentTable × Nat :=
  let table := self.table ++ [[]]
  (⟨table⟩, table.length - 1)

/-- `ParentTable::is_parent`: `parent` is recorded among `child`'s ancestors. -/
def ParentTable.is_parent (self : ParentTable) (parent child : Nat) : Bool :=
  (self.table.getD child []).contains parent

/-- `ParentTable::add_parent`: add `parent` and all of `parent`'s ancestors to
`node`'s ancestor set. -/
def ParentTable.add_parent (self : ParentTable) (parent node : Nat) :
    ParentTable :=
  let parent_parents := self.table.getD parent []
  let current := self.table.getD node []
  let current := nsExtend (nsInsert parent current).1 parent_parents
  ⟨self.table.set node current⟩

/-- `run_ctx::WriteTable` (also `write_table.rs`): map from `(Entity,
ComponentId)` to the node that last wrote it this tick. -/
def WriteTable := List (Loc × Nat)

def WriteTable.insert (self : WriteTable) (location : Loc) (writer : Nat) :
    WriteTable :=
  ainsert location writer self

/-- `WriteTable::conflicts` (`write_table.rs`): the recorded writers of the
given locations, in input order. -/
def WriteTable.conflicts (self : WriteTable) (vals : List Loc) : List Nat :=
  vals.filterMap (fun k => alookup k self)

/-- `run_ctx::RunContext` minus the executor-side queues (those live in the
executor state below). -/
structure RunContext where
  write_table : WriteTable
  parent_table : ParentTable
  current_node_map : List (Nat × Nat)
  delayed : List (Nat × Nat)

def RunContext.new : RunContext :=
  { write_table := [], parent_table := ⟨[]⟩, current_node_map := [], delayed := [] }

/-- `RunContext::can_execute_now`: if the location was written this tick by a
node that is *not* already an ancestor of `node`, return that writer. -/
def RunContext.can_execute_now (self : RunContext) (node : Nat)
    (react_to : Loc) : Option Nat :=
  match alookup react_to self.write_table with
  | some writer =>
      if ¬ self.parent_table.is_parent writer node then some writer else none
  | none => none

end RunCtx

/-! ### `src/rework/executor/mod.rs` — the rework `ParentTable` -/

namespace Rework

/-- rework `ParentTable`: ancestor sets plus the per-coroutine current node
(`node_map: HashMap<Id, usize>`, modelled with the id's bits as key). -/
structure ParentTable where
  table : List (List Nat)
  node_map : List (Nat × Nat)
  deriving Repr

/-- rework `ParentTable::add_child`: clone the child's previous ancestor set if
any, extend it with the parent's set, insert the parent — and then (exactly as
the Rust does) *without pushing the new set* take `table.len() - 1` as the
returned node and record it in `node_map`. -/
def ParentTable.add_child (self : ParentTable) (parent : Nat) (child : Id) :
    ParentTable × Nat :=
  let parents :=
    match alookup child.to_bits self.node_map with
    | some node => self.table.getD node []
    | none => []
  let parents := nsExtend parents (self.table.getD parent [])
  let _parents := (nsInsert parent parents).1
  let node := self.table.length - 1
  (⟨self.table, ainsert child.to_bits node self.node_map⟩, node)

/-- rework `ParentTable::add_root`. -/
def ParentTable.add_root (self : ParentTable) (c : Id) : ParentTable × Nat :=
  let table := self.table ++ [[]]
  let node := table.length - 1
  (⟨table, ainsert c.to_bits node self.node_map⟩, node)

/-- rework `ParentTable::is_parent`. -/
def ParentTable.is_parent (self : ParentTable) (parent child : Nat) : Bool :=
  (self.table.getD child []).contains parent

/-- rework `ParentTable::add_parent`. -/
def ParentTable.add_parent (self : ParentTable) (parent node : Nat) :
    ParentTable :=
  let parent_parents := self.table.getD parent []
  let current := self.table.getD node []
  let current := nsExtend (nsInsert parent current).1 parent_parents
  ⟨self.table.set node current, self.node_map⟩

end Rework

/-! ### `bevy::time::Timer` (mode `Once`), as used by the executors -/

/-- Bevy one-shot timer: duration, accumulated elapsed time, finished flag and
the `times_finished_this_tick > 0` observation (`just_finished`). -/
structure Timer where
  duration : Nat
  elapsed : Nat
  finished : Bool
  just : Bool
  deriving DecidableEq, Repr

/-- `Timer::new(d, TimerMode::Once)`. -/
def Timer.new (d : Nat) : Timer :=
  { duration := d, elapsed := 0, finished := false, just := false }

/-- `Timer::tick(delta)` for a non-repeating timer: a timer that had already
finished reports nothing; otherwise elapsed time accumulates (clamped at the
duration) and the timer just-finishes when it reaches the duration. -/
def Timer.tick (self : Timer) (delta : Nat) : Timer :=
  if self.finished then { self with just := false }
  else
    let elapsed := min self.duration (self.elapsed + delta)
    let fin := decide (self.duration ≤ elapsed)
    { duration := self.duration, elapsed := elapsed, finished := fin, just := fin }

/-- `Timer::just_finished`. -/
def Timer.just_finished (self : Timer) : Bool := self.just

/-! ### Suspension primitives: two-state futures -/

/-- `CoroState` (`coroutine/mod.rs` and `rework/function_coroutine/mod.rs`). -/
inductive CoroState where
  | Halted
  | Running
  deriving DecidableEq, Repr

/-- `std::task::Poll`. -/
inductive Poll (α : Type) where
  | ready (value : α)
  | pending
  deriving DecidableEq, Repr

/-- rework `executor/msg.rs` `CoroStatus` (first/all sets carry the ids as
`to_bits` values, like `SetU64` does). -/
inductive CoroStatus where
  | tick
  | duration (d : Timer)
  | first (handlers : List Nat)
  | all (handlers : List Nat)
  | done
  | cancel
  deriving Repr

/-- `rework/tick.rs` `NextTick`. -/
structure NextTick where
  state : CoroState
  deriving DecidableEq, Repr

/-- `NextTick::new`. -/
def NextTick.new : NextTick := { state := .Running }

/-- `NextTick::poll`: `dt` is the `Time::delta()` the Halted branch reads from
the world.  Returns the updated future, the poll result, and the statuses sent
through `scope.yield_`. -/
def NextTick.poll (self : NextTick) (dt : Nat) :
    NextTick × Poll Nat × List CoroStatus :=
  match self.state with
  | .Halted => ({ state := .Running }, .ready dt, [])
  | .Running => ({ state := .Halted }, .pending, [.tick])

/-- `rework/tick.rs` `DurationFuture`. -/
structure DurationFuture where
  duration : Nat
  state : CoroState
  deriving DecidableEq, Repr

/-- `DurationFuture::new`. -/
def DurationFuture.new (duration : Nat) : DurationFuture :=
  { duration, state := .Running }

/-- `DurationFuture::poll`. -/
def DurationFuture.poll (self : DurationFuture) :
    DurationFuture × Poll Unit × List CoroStatus :=
  match self.state with
  | .Halted => ({ self with state := .Running }, .ready (), [])
  | .Running =>
      ({ self with state := .Halted }, .pending, [.duration (Timer.new self.duration)])

/-! ### `rework/function_coroutine/handle.rs` — coroutine handles, and the
first/all suspension futures built on them (`await_first.rs`, and the
`AwaitAll` iteration kept in `rework/all.rs`) -/

/-- The receive half of the result once-channel, as `CoroHandle` observes it:
`try_recv()` either yields the value, would block, or finds the sender
dropped. -/
inductive Receiver (α : Type) where
  | empty
  | ready (v : α)
  | disconnected
  deriving DecidableEq, Repr

/-- `handle.rs` `CoroHandle<T>`. -/
inductive CoroHandle (α : Type) where
  | Waiting (id : Id) (receiver : Receiver α)
  | Done (v : α)
  | Canceled
  | Finish
  deriving DecidableEq, Repr

/-- `handle.rs` `Status` (`StillWaiting` carries a `SetU64` of id bits). -/
inductive Status where
  | Done
  | StillWaiting (w : List Nat)
  | Canceled
  | Consumed
  deriving DecidableEq, Repr

/-- `CoroHandle::update_status`: returns the mutated handle and its status. -/
def CoroHandle.update_status {α : Type} : CoroHandle α → CoroHandle α × Status
  | .Waiting id .empty => (.Waiting id .empty, .StillWaiting [id.to_bits])
  | .Waiting _ (.ready v) => (.Done v, .Done)
  | .Waiting _ .disconnected => (.Canceled, .Canceled)
  | .Done v => (.Done v, .Done)
  | .Canceled => (.Canceled, .Canceled)
  | .Finish => (.Finish, .Consumed)

/-- `CoroHandle::try_fetch`: returns the mutated handle and the fetched
value, if any. -/
def CoroHandle.try_fetch {α : Type} : CoroHandle α → CoroHandle α × Option α
  | .Waiting _ (.ready v) => (.Finish, some v)
  | .Waiting id r => (.Waiting id r, none)
  | .Done v => (.Finish, some v)
  | .Canceled => (.Canceled, none)
  | .Finish => (.Finish, none)

/-- `HandleTuple::update_status` for a tuple of handles (the
`impl_handler_tuple` expansion): the component statuses combine left to right
through `Status::combine`, whose `Canceled`/`Consumed` arms short-circuit
without evaluating the closure, so the remaining handles are then not
updated. -/
def tupleUpdateStatus {α : Type} :
    List (CoroHandle α) → List (CoroHandle α) × Status
  | [] => ([], .Done)
  | h :: rest =>
      let r := h.update_status
      match r.2 with
      | .Canceled => (r.1 :: rest, .Canceled)
      | .Consumed => (r.1 :: rest, .Consumed)
      | .Done =>
          let rr := tupleUpdateStatus rest
          (r.1 :: rr.1, rr.2)
      | .StillWaiting w =>
          let rr := tupleUpdateStatus rest
          match rr.2 with
          | .Done => (r.1 :: rr.1, .StillWaiting w)
          | .StillWaiting w2 => (r.1 :: rr.1, .StillWaiting (nsExtend w w2))
          | s => (r.1 :: rr.1, s)

/-- `HandleTuple::try_fetch` for a tuple: fetch each component in order; the
`?` operator short-circuits on the first `None`, leaving the earlier handles
already consumed. -/
def tupleTryFetch {α : Type} :
    List (CoroHandle α) → List (CoroHandle α) × Option (List α)
  | [] => ([], some [])
  | h :: rest =>
      let r := h.try_fetch
      match r.2 with
      | none => (r.1 :: rest, none)
      | some v =>
          let rr := tupleTryFetch rest
          match rr.2 with
          | some vs => (r.1 :: rr.1, some (v :: vs))
          | none => (r.1 :: rr.1, none)

/-- `await_first.rs` `AwaitFirst` (the `[CoroHandle<T>; N]` array as a
list). -/
structure AwaitFirst (α : Type) where
  handles : List (CoroHandle α)
  state : CoroState
  deriving Repr

/-- `AwaitFirst::new`: state starts `Running`. -/
def AwaitFirst.new {α : Type} (handles : List (CoroHandle α)) : AwaitFirst α :=
  { handles, state := .Running }

/-- Outcome of the `for h in this.handles` loop in the `Running` branch of
`AwaitFirst::poll`: either some handle's status was `Canceled`/`Consumed`
(the loop returned early after yielding `Cancel`), or the loop finished with
the first fetched value (if any) and the accumulated still-waiting set. -/
inductive FirstScan (α : Type) where
  | aborted
  | finished (done : Option α) (set : List Nat)
  deriving Repr

/-- The `Running`-branch loop of `AwaitFirst::poll`: update every handle in
order, fetch the first `Done` one (its `try_fetch().unwrap()` is an error if
the value is missing), extend the still-waiting set, abort on anything
else. -/
def awaitFirstScan {α : Type} : List (CoroHandle α) → Option α → List Nat →
    Except String (List (CoroHandle α) × FirstScan α)
  | [], done, set => .ok ([], .finished done set)
  | h :: rest, done, set =>
      let r := h.update_status
      match r.2 with
      | .Done =>
          match done with
          | none =>
              let f := r.1.try_fetch
              match f.2 with
              | some v =>
                  match awaitFirstScan rest (some v) set with
                  | .ok (hs, out) => .ok (f.1 :: hs, out)
                  | .error e => .error e
              | none => .error "done = Some(h.try_fetch().unwrap())"
          | some v =>
              match awaitFirstScan rest (some v) set with
              | .ok (hs, out) => .ok (r.1 :: hs, out)
              | .error e => .error e
      | .StillWaiting w =>
          match awaitFirstScan rest done (nsExtend set w) with
          | .ok (hs, out) => .ok (r.1 :: hs, out)
          | .error e => .error e
      | _ => .ok (r.1 :: rest, .aborted)

/-- The `Halted`-branch loop of `AwaitFirst::poll`: update each handle until
one reports `Done` and fetch it; `none` means the loop fell through to the
`panic!`. -/
def awaitFirstHalted {α : Type} : List (CoroHandle α) →
    Except String (List (CoroHandle α) × Option α)
  | [] => .ok ([], none)
  | h :: rest =>
      let r := h.update_status
      match r.2 with
      | .Done =>
          let f := r.1.try_fetch
          match f.2 with
          | some v => .ok (f.1 :: rest, some v)
          | none => .error "h.try_fetch().unwrap()"
      | _ =>
          match awaitFirstHalted rest with
          | .ok (hs, res) => .ok (r.1 :: hs, res)
          | .error e => .error e

/-- `AwaitFirst::poll`: the updated future, the statuses sent through
`scope.yield_`, and the poll result; the `Halted`-branch `panic!` and the
`unwrap`s are `Except.error`s.  Note that the `Running` branch — the first
poll after construction — returns `Poll::Ready` immediately when one of the
handles is already done. -/
def AwaitFirst.poll {α : Type} (self : AwaitFirst α) :
    Except String (AwaitFirst α × List CoroStatus × Poll α) :=
  match self.state with
  | .Halted =>
      match awaitFirstHalted self.handles with
      | .error e => .error e
      | .ok (hs, some v) =>
          .ok ({ handles := hs, state := .Running }, [], .ready v)
      | .ok (_, none) =>
          .error "The executor resumed a coroutine at the wrong time, this is a bug"
  | .Running =>
      match awaitFirstScan self.handles none [] with
      | .error e => .error e
      | .ok (hs, .aborted) =>
          .ok ({ handles := hs, state := .Halted }, [.cancel], .pending)
      | .ok (hs, .finished (some v) _) =>
          .ok ({ handles := hs, state := .Halted }, [], .ready v)
      | .ok (hs, .finished none set) =>
          .ok ({ handles := hs, state := .Halted }, [.first set], .pending)

/-- `rework/all.rs` `AwaitAll` (the handle tuple as a list). -/
structure AwaitAll (α : Type) where
  handlers : List (CoroHandle α)
  state : CoroState
  deriving Repr

/-- `AwaitAll::new`: state starts `Running`. -/
def AwaitAll.new {α : Type} (handlers : List (CoroHandle α)) : AwaitAll α :=
  { handlers, state := .Running }

/-- `AwaitAll::poll` (`rework/all.rs`; this iteration records its suspension
through `set_waiting_reason(WaitingReason::All/Cancel)`, returned here in the
same message list that models `scope.yield_`).  As with `AwaitFirst`, the
`Running` branch returns `Poll::Ready` at once when every handle is already
done. -/
def AwaitAll.poll {α : Type} (self : AwaitAll α) :
    Except String (AwaitAll α × List CoroStatus × Poll (List α)) :=
  match self.state with
  | .Halted =>
      let r := tupleUpdateStatus self.handlers
      match r.2 with
      | .Done =>
          let f := tupleTryFetch r.1
          match f.2 with
          | some vs => .ok ({ handlers := f.1, state := .Running }, [], .ready vs)
          | none => .error "this.handlers.try_fetch().unwrap()"
      | _ => .error "unreachable!()"
  | .Running =>
      let r := tupleUpdateStatus self.handlers
      match r.2 with
      | .Done =>
          let f := tupleTryFetch r.1
          match f.2 with
          | some vs => .ok ({ handlers := f.1, state := .Halted }, [], .ready vs)
          | none => .error "this.handlers.try_fetch().unwrap()"
      | .StillWaiting ids =>
          .ok ({ handlers := r.1, state := .Halted }, [.all ids], .pending)
      | _ => .ok ({ handlers := r.1, state := .Halted }, [.cancel], .pending)

/-! ### Old-executor coroutine interface (`coroutine/mod.rs`) -/

/-!
A deep-embedded coroutine body for the old executor: what one `poll` does.
`OStep` is one resumption: the `(Entity, ComponentId)` pairs it writes, the
`GrabReason` (declared write set) it sends on the grab channel, and how it
suspends. `WaitingReason::ParOr/ParAnd` carry the child coroutine objects
themselves, hence the nested scripts.
-/
mutual
inductive OWaitingReason where
  | Tick : OWaitingReason
  | Duration : Timer → OWaitingReason
  | Changed : Nat → Nat → OWaitingReason
  | ParOr : List OScript → OWaitingReason
  | ParAnd : List OScript → OWaitingReason

inductive OOutcome where
  | yield : OWaitingReason → OOutcome
  | done : OOutcome
  | foreign : OOutcome

inductive OStep where
  | mk : List Loc → Option (List Loc) → OOutcome → OStep

inductive OScript where
  | nil : OScript
  | cons : OStep → OScript → OScript
end

def OStep.writes : OStep → List Loc
  | .mk w _ _ => w

def OStep.grab : OStep → Option (List Loc)
  | .mk _ g _ => g

def OStep.outcome : OStep → OOutcome
  | .mk _ _ o => o

/-- `coroutine/when.rs` `Change<T>`: the two-state change-waiting future. -/
structure Change where
  from_ : Nat
  state : CoroState
  deriving DecidableEq, Repr

/-- `Change::new`. -/
def Change.new (from_ : Nat) : Change := { from_, state := .Running }

/-- `Change::poll`: `c_id` is the `ComponentId` of `T`, fetched from the world
at poll time. -/
def Change.poll (self : Change) (c_id : Nat) :
    Change × Poll Unit × List OWaitingReason :=
  match self.state with
  | .Halted => ({ self with state := .Running }, .ready (), [])
  | .Running =>
      ({ self with state := .Halted }, .pending, [.Changed self.from_ c_id])

/-! ### `rework/mod.rs` — declared access sets -/

/-- `rework::SourceId`. -/
inductive SourceId where
  | entity (e : Nat)
  | allEntities
  | world
  deriving DecidableEq, Repr

/-- `rework::CoroAccess`. -/
structure CoroAccess where
  reads : List (SourceId × List Nat)
  writes : List (SourceId × List Nat)
  deriving Repr

def CoroAccess.default : CoroAccess := { reads := [], writes := [] }

/-- `CoroAccess::add_write`: fails on a component already declared as read;
otherwise inserts into the write set and returns the set-insert result
(`false` when the very same write was already declared). -/
def CoroAccess.add_write (self : CoroAccess) (to_ : SourceId) (component : Nat) :
    CoroAccess × Bool :=
  match alookup to_ self.reads with
  | some reads =>
      if reads.contains component then (self, false)
      else
        let r := nsInsert component ((alookup to_ self.writes).getD [])
        ({ self with writes := ainsert to_ r.1 self.writes }, r.2)
  | none =>
      let r := nsInsert component ((alookup to_ self.writes).getD [])
      ({ self with writes := ainsert to_ r.1 self.writes }, r.2)

/-- `CoroAccess::add_read`: fails on a component already declared as written;
otherwise inserts into the read set and returns `true`. -/
def CoroAccess.add_read (self : CoroAccess) (to_ : SourceId) (component : Nat) :
    CoroAccess × Bool :=
  match alookup to_ self.writes with
  | some writes =>
      if writes.contains component then (self, false)
      else
        let r := nsInsert component ((alookup to_ self.reads).getD [])
        ({ self with reads := ainsert to_ r.1 self.reads }, true)
  | none =>
      let r := nsInsert component ((alookup to_ self.reads).getD [])
      ({ self with reads := ainsert to_ r.1 self.reads }, true)

/-- Modelled from the spec: the concrete `CoroParam` implementations
(`rework/coro_param/component.rs`) are commented out in the snapshot; only the
trait and the tuple fold survive.  Per §4.2 a declared parameter either reads a
`(source, field)`, exclusively writes one, or refers to a component/owner that
does not exist in the world (in which case its init fails before touching the
access set). -/
inductive ParamSpec where
  | read (s : SourceId) (c : Nat)
  | write (s : SourceId) (c : Nat)
  | missing
  deriving DecidableEq, Repr

/-- Modelled from the spec: a single parameter's `CoroParam::init` against the
accumulated access set, using the real `CoroAccess` operations; a conflict or a
missing component/owner yields `none`. -/
def ParamSpec.init (p : ParamSpec) (acc : CoroAccess) : Option CoroAccess :=
  match p with
  | .read s c =>
      let r := acc.add_read s c
      if r.2 then some r.1 else none
  | .write s c =>
      let r := acc.add_write s c
      if r.2 then some r.1 else none
  | .missing => none

/-- The tuple `CoroParam::init` fold (`rework/coro_param/mod.rs`): set up
each parameter in declaration order, short-circuiting on failure. -/
def paramsInit : List ParamSpec → CoroAccess → Option CoroAccess
  | [], acc => some acc
  | p :: rest, acc =>
      match p.init acc with
      | some acc' => paramsInit rest acc'
      | none => none

/-! ### `src/id_alloc.rs` — the generational allocator `Ids` -/

/-- `id_alloc::Ids`: generations (`meta`), free list (`pending`), the atomic
cursor (plain `Int` here: resumption is single-threaded) and the live count. -/
structure Ids where
  meta : List Nat
  pending : List Nat
  free_cursor : Int
  len : Nat
  deriving DecidableEq, Repr

def Ids.new : Ids := { meta := [], pending := [], free_cursor := 0, len := 0 }

/-- `Ids::allocate_id` (`fetch_sub` then either free-list reuse or a fresh
index past `meta.len()`). -/
def Ids.allocate_id (self : Ids) : Ids × Id :=
  let n := self.free_cursor
  let next := { self with free_cursor := n - 1 }
  if 0 < n then
    let index := self.pending.getD (n - 1).toNat 0
    (next, { generation := self.meta.getD index 0, index })
  else
    (next, { generation := 0, index := (Int.ofNat self.meta.length - n).toNat })

/-- `Ids::needs_flush`. -/
def Ids.needs_flush (self : Ids) : Bool :=
  self.free_cursor ≠ Int.ofNat self.pending.length

/-- `Ids::flush`. -/
def Ids.flush (self : Ids) : Ids :=
  let current := self.free_cursor
  if 0 ≤ current then
    let newCursor := current.toNat
    { self with
      len := self.len + (self.pending.length - newCursor),
      pending := self.pending.take newCursor }
  else
    let extra := (-current).toNat
    { meta := self.meta ++ List.replicate extra 0,
      pending := [],
      free_cursor := 0,
      len := self.len + extra + self.pending.length }

/-- `Ids::flush_if_needed`. -/
def Ids.flush_if_needed (self : Ids) : Ids :=
  if self.needs_flush then self.flush else self

/-- `Ids::free`: flush if needed, then `&mut self.meta[id.index as usize]` —
which panics (modelled as `Except.error`) when the index lies past `meta` —,
generation check, generation bump, free-list push, and `self.len -= 1`; the
counters are `u32`, so the bump and the decrement wrap at `2^32` (the
release-build semantics; a decrement from 0 underflows). -/
def Ids.free (self : Ids) (id : Id) : Except String (Ids × Bool) :=
  let self := self.flush_if_needed
  match self.meta.get? id.index with
  | none => .error "index out of bounds: self.meta[id.index as usize]"
  | some g =>
      if g ≠ id.generation then .ok (self, false)
      else
        let meta := self.meta.set id.index ((g + 1) % 2 ^ 32)
        let pending := self.pending ++ [id.index]
        .ok ({ meta, pending, free_cursor := Int.ofNat pending.length,
               len := (self.len + (2 ^ 32 - 1)) % 2 ^ 32 }, true)

/-- `Ids::resolve_from_id`. -/
def Ids.resolve_from_id (self : Ids) (index : Nat) : Option Id :=
  match self.meta.get? index with
  | some generation => some { generation, index }
  | none =>
      let fc := self.free_cursor
      if 0 ≤ -fc ∧ index < self.meta.length + (-fc).toNat then
        some { generation := 0, index }
      else none

/-- `Ids::contains`. -/
def Ids.contains (self : Ids) (id : Id) : Bool :=
  match self.resolve_from_id id.index with
  | some e => e.generation = id.generation
  | none => false


/-! ### The rework executor (`src/rework/executor/mod.rs`)

Coroutines are deep-embedded as scripts: one `RStep` describes one resumption
of the `FunctionCoroutine` — the observable side effect it performs (a counter
bump, standing in for the `Arc<Mutex<_>>` cells of the crate's tests), the
sub-coroutines it spawns through its `Scope` (`scope.start` and friends), and
the `CoroStatus` it leaves in the yield channel.  A `foreign` status models
user code awaiting a future outside the library: the future returns `Pending`
without any `YieldMsg` having been sent. -/

inductive RStatus where
  | tick : RStatus
  | duration : Nat → RStatus
  | first : List Nat → RStatus
  | all : List Nat → RStatus
  | done : Nat → RStatus
  | cancel : RStatus
  | foreign : RStatus

/-- One resumption: counter bump, spawned children as
`(is_owned_by_scope, should_start_now, has_result_channel, script)`, status. -/
inductive RStep where
  | mk : Nat → List (Bool × Bool × Bool × List RStep) → RStatus → RStep

abbrev RScript := List RStep

/-- A stored coroutine: remaining script and whether a result once-channel
(`result_sender`) is attached. -/
abbrev RCoro := RScript × Bool

/-- A step with no side effect and no spawns. -/
def step (s : RStatus) : RStep := .mk 0 [] s

/-- A step that bumps the shared counter by 1, then yields `s`. -/
def bumpStep (s : RStatus) : RStep := .mk 1 [] s

/-- The rework `Executor` state (plus two observables: the shared `counter`
cell the crate's tests use, and `log`, the sequence of coroutines actually
polled, newest last). -/
structure RState where
  ids : Ids
  coroutines : List (Id × RCoro)
  waiting_on_tick : List Id
  waiting_on_time : List (Id × Timer)
  waiting_on_all : List (Id × List Nat)
  waiting_on_first : List (Id × List Nat)
  scope_ownership : List (Id × List Nat)
  is_awaited_by : List (Id × Id)
  results : List (Id × Nat)
  counter : Nat
  log : List (Id × Nat)

def RState.empty : RState :=
  { ids := Ids.new, coroutines := [], waiting_on_tick := [], waiting_on_time := [],
    waiting_on_all := [], waiting_on_first := [], scope_ownership := [],
    is_awaited_by := [], results := [], counter := 0, log := [] }

/-- The `if let Some(owned) = self.scope_ownership.remove(&coro_id)` stage of
rework `Executor::cancel`: cancel everything the scope owned. -/
def cancelOwned (recurse : RState → Id → Except String RState) (st : RState)
    (coro_id : Id) : Except String RState :=
  match alookup coro_id st.scope_ownership with
  | some owned =>
      owned.foldlM (fun s c => recurse s (Id.from_bits c))
        { st with scope_ownership := aremove coro_id st.scope_ownership }
  | none => .ok st

/-- The `if let Some(parent) = self.is_awaited_by.remove(&coro_id)` stage of
rework `Executor::cancel`: cancel whoever awaited the coroutine. -/
def cancelAwaitedBy (recurse : RState → Id → Except String RState) (st : RState)
    (coro_id : Id) : Except String RState :=
  match alookup coro_id st.is_awaited_by with
  | some parent =>
      recurse { st with is_awaited_by := aremove coro_id st.is_awaited_by } parent
  | none => .ok st

/-- The `if let Some(others) = self.waiting_on_first.remove(&coro_id)` stage of
rework `Executor::cancel`: cancel every id the coroutine was awaiting through
a `First` group. -/
def cancelWaitFirst (recurse : RState → Id → Except String RState) (st : RState)
    (coro_id : Id) : Except String RState :=
  match alookup coro_id st.waiting_on_first with
  | some others =>
      others.foldlM (fun s o => recurse s (Id.from_bits o))
        { st with waiting_on_first := aremove coro_id st.waiting_on_first }
  | none => .ok st

/-- The `if let Some(others) = self.waiting_on_all.remove(&coro_id)` stage of
rework `Executor::cancel`: cancel every id the coroutine was awaiting through
an `All` group. -/
def cancelWaitAll (recurse : RState → Id → Except String RState) (st : RState)
    (coro_id : Id) : Except String RState :=
  match alookup coro_id st.waiting_on_all with
  | some others =>
      others.foldlM (fun s o => recurse s (Id.from_bits o))
        { st with waiting_on_all := aremove coro_id st.waiting_on_all }
  | none => .ok st

/-- The body of rework `Executor::cancel`, parameterized over the recursive
call: free the id (`Ids::free` can panic), drop the coroutine, then the four
stages above in source order. -/
def cancelStep (recurse : RState → Id → Except String RState) (st : RState)
    (coro_id : Id) : Except String RState :=
  match st.ids.free coro_id with
  | .error e => .error e
  | .ok fr =>
    match cancelOwned recurse
        { st with ids := fr.1, coroutines := aremove coro_id st.coroutines }
        coro_id with
    | .error e => .error e
    | .ok st =>
      match cancelAwaitedBy recurse st coro_id with
      | .error e => .error e
      | .ok st =>
        match cancelWaitFirst recurse st coro_id with
        | .error e => .error e
        | .ok st => cancelWaitAll recurse st coro_id

/-- rework `Executor::cancel`, fuel-indexed (the Rust recursion always
terminates because every call strips its id's entries before recursing).
Fuel exhaustion is an error distinct from every real outcome, so an `.ok`
run of the model is exactly a terminating panic-free run of the Rust. -/
def cancelFuel : Nat → RState → Id → Except String RState
  | 0, _, _ => .error "cancel out of fuel"
  | fuel + 1, st, coro_id => cancelStep (cancelFuel fuel) st coro_id

/-- rework `Executor::mark_as_done`: remove the finished coroutine, cancel
everything its scope owned, then resolve a waiting `First` (cancel the other
members, schedule the parent this tick) or `All` (drop this member, schedule
the parent once the set empties) group. -/
def mark_as_done (fuel : Nat) (st : RState) (coro_id : Id) (coro_node : Nat)
    (ready : List (Id × Nat)) (parents : Rework.ParentTable) :
    Except String (RState × List (Id × Nat) × Rework.ParentTable) :=
  let st := { st with coroutines := aremove coro_id st.coroutines }
  let own :=
    match alookup coro_id st.scope_ownership with
    | some owned =>
        owned.foldlM (fun s c => cancelFuel fuel s (Id.from_bits c))
          { st with scope_ownership := aremove coro_id st.scope_ownership }
    | none => .ok st
  match own with
  | .error e => .error e
  | .ok st =>
    match alookup coro_id st.is_awaited_by with
    | none => .ok (st, ready, parents)
    | some parent =>
      let st := { st with is_awaited_by := aremove coro_id st.is_awaited_by }
      let stage : Except String (RState × List (Id × Nat) × Rework.ParentTable) :=
        match alookup parent st.waiting_on_first with
        | some others =>
            let st := { st with waiting_on_first := aremove parent st.waiting_on_first }
            let others := nsRemove coro_id.to_bits others
            match others.foldlM
                (fun s o =>
                  let id := Id.from_bits o
                  cancelFuel fuel { s with is_awaited_by := aremove id s.is_awaited_by } id)
                st with
            | .error e => .error e
            | .ok st =>
                let r := parents.add_child coro_node parent
                .ok (st, ready ++ [(parent, r.2)], r.1)
        | none => .ok (st, ready, parents)
      match stage with
      | .error e => .error e
      | .ok (st, ready, parents) =>
        match alookup parent st.waiting_on_all with
        | some others =>
            let others := nsRemove coro_id.to_bits others
            let (parents, node) := parents.add_child coro_node parent
            if others.isEmpty then
              .ok ({ st with waiting_on_all := aremove parent st.waiting_on_all },
                   ready ++ [(parent, node)], parents)
            else
              .ok ({ st with waiting_on_all := ainsert parent others st.waiting_on_all },
                   ready, parents)
        | none => .ok (st, ready, parents)

/-- rework `Executor::resume`: skip freed ids, poll the coroutine (one script
step: effects, result hand-off through the once-channel, spawn messages, yield
message), drain the new-coroutine channel, then interpret the yield message —
whose absence (a foreign await) is the `try_recv_sync().unwrap()` panic. -/
def resume (fuel : Nat) (st : RState) (coro_id : Id) (coro_node : Nat)
    (ready : List (Id × Nat)) (parents : Rework.ParentTable) :
    Except String (RState × List (Id × Nat) × Rework.ParentTable) :=
  if ¬ st.ids.contains coro_id then .ok (st, ready, parents)
  else
    match alookup coro_id st.coroutines with
    | none => .error "coroutines.get_mut(&coro_id).unwrap()"
    | some (script, hasChan) =>
      match script with
      | [] => .error "polled a finished coroutine"
      | .mk bump spawns status :: rest =>
        let st := { st with
          counter := st.counter + bump
          log := st.log ++ [(coro_id, coro_node)]
          coroutines := ainsert coro_id (rest, hasChan) st.coroutines }
        let (st, newMsgs) := spawns.foldl
          (fun (acc : RState × List (Id × Bool × Bool × Bool × RScript)) sp =>
            let (s, msgs) := acc
            let (ids, id) := s.ids.allocate_id
            ({ s with ids }, msgs ++ [(id, sp)]))
          (st, [])
        let st :=
          match status with
          | .done v => if hasChan then { st with results := ainsert coro_id v st.results } else st
          | _ => st
        let (st, ready, parents) := newMsgs.foldl
          (fun (acc : RState × List (Id × Nat) × Rework.ParentTable) msg =>
            let (s, rdy, pts) := acc
            let (id, is_owned, start_now, chan, childScript) := msg
            let s := { s with coroutines := ainsert id (childScript, chan) s.coroutines }
            let s :=
              if is_owned then
                let owned := (nsInsert id.to_bits ((alookup coro_id s.scope_ownership).getD [])).1
                { s with scope_ownership := ainsert coro_id owned s.scope_ownership }
              else s
            if start_now then
              let (pts, next_node) := pts.add_child coro_node id
              (s, rdy ++ [(id, next_node)], pts)
            else (s, rdy, pts))
          (st, ready, parents)
        match status with
        | .foreign => .error "yield_channel.try_recv_sync().unwrap()"
        | .done _ => mark_as_done fuel st coro_id coro_node ready parents
        | .tick => .ok ({ st with waiting_on_tick := st.waiting_on_tick ++ [coro_id] },
                        ready, parents)
        | .duration d =>
            .ok ({ st with waiting_on_time := st.waiting_on_time ++ [(coro_id, Timer.new d)] },
                 ready, parents)
        | .first handlers =>
            let st := { st with waiting_on_first := ainsert coro_id handlers st.waiting_on_first }
            let st := handlers.foldl
              (fun s h => { s with is_awaited_by := ainsert (Id.from_bits h) coro_id s.is_awaited_by })
              st
            .ok (st, ready, parents)
        | .all handlers =>
            let st := { st with waiting_on_all := ainsert coro_id handlers st.waiting_on_all }
            let st := handlers.foldl
              (fun s h => { s with is_awaited_by := ainsert (Id.from_bits h) coro_id s.is_awaited_by })
              st
            .ok (st, ready, parents)
        | .cancel =>
            match cancelFuel fuel st coro_id with
            | .ok st => .ok (st, ready, parents)
            | .error e => .error e

/-- The `while let Some((coro_id, node)) = ready_coro.pop_front()` loop of
rework `Executor::tick`. -/
def runLoop : Nat → RState → List (Id × Nat) → Rework.ParentTable →
    Except String (RState × Rework.ParentTable)
  | 0, _, _, _ => .error "out of fuel"
  | _, st, [], parents => .ok (st, parents)
  | fuel + 1, st, (coro_id, node) :: rest, parents =>
    match resume fuel st coro_id node rest parents with
    | .ok (st, ready, parents) => runLoop fuel st ready parents
    | .error e => .error e

/-- rework `Executor::tick`: drain the tick queue, advance the duration
timers (just-finished waiters join the roots), give every root a fresh root
node in a brand new `ParentTable`, run the ready loop, flush the allocator.
This variant also returns the tick's final `ParentTable` (a local that Rust
drops when `tick` returns), so theorems can inspect the ordering nodes. -/
def RState.tick_full (fuel : Nat) (delta : Nat) (st : RState) :
    Except String (RState × Rework.ParentTable) :=
  let root := st.waiting_on_tick
  let st := { st with waiting_on_tick := [] }
  let ticked := st.waiting_on_time.map (fun e => (e.1, e.2.tick delta))
  let root := root ++ (ticked.filter (fun e => e.2.just_finished)).map Prod.fst
  let st := { st with waiting_on_time := ticked.filter (fun e => ¬ e.2.just_finished) }
  let init : Rework.ParentTable × List (Id × Nat) := (⟨[], []⟩, [])
  let (parents, ready) := root.foldl
    (fun acc c =>
      let (pt, rdy) := acc
      let (pt, node) := Rework.ParentTable.add_root pt c
      (pt, rdy ++ [(c, node)]))
    init
  match runLoop fuel st ready parents with
  | .ok (st, parents) => .ok ({ st with ids := st.ids.flush }, parents)
  | .error e => .error e

/-- rework `Executor::tick` as Rust exposes it: the parent table is dropped. -/
def RState.tick (fuel : Nat) (delta : Nat) (st : RState) : Except String RState :=
  (st.tick_full fuel delta).map Prod.fst

/-- rework `Executor::tick_until_empty`, specialised to a bounded number of
rounds (the tests drive it with concrete workloads). -/
def RState.ticks (fuel : Nat) (deltas : List Nat) (st : RState) :
    Except String RState :=
  deltas.foldlM (fun s d => s.tick fuel d) st

/-- rework `Executor::add_coroutine`. -/
def RState.add_coroutine (st : RState) (id : Id) (coroutine : RCoro) : RState :=
  { st with coroutines := ainsert id coroutine st.coroutines,
            waiting_on_tick := st.waiting_on_tick ++ [id] }

/-- What a function-coroutine spawn declares: its parameters and its body. -/
structure FCoroSpec where
  params : List ParamSpec
  script : RScript

/-- `FunctionCoroutine::new`: set up the declared parameters against the
world, accumulating the access set; any failure makes the whole construction
return `None`. -/
def FunctionCoroutine.new (spec : FCoroSpec) : Option (CoroAccess × RScript) :=
  (paramsInit spec.params CoroAccess.default).map (fun acc => (acc, spec.script))

/-- rework `Executor::add_function_coroutine`: allocate an id, construct the
coroutine, and only on success store it (a failed construction changes
nothing else). -/
def RState.add_function_coroutine (st : RState) (spec : FCoroSpec) : RState :=
  let (ids, id) := st.ids.allocate_id
  let st := { st with ids }
  match FunctionCoroutine.new spec with
  | some _ => st.add_coroutine id (spec.script, false)
  | none => st


/-! ### The old executor (`src/executor/mod.rs`)

Coroutines are again deep-embedded as scripts (`OScript` above); world change
detection is modelled by `written`, the set of `(Entity, ComponentId)` pairs
whose Bevy change tick falls inside the executor's current detection window:
it starts each tick as the externally-dirtied pairs and accumulates the writes
coroutines perform while being polled (matching
`tick.is_changed(world.last_change_tick(), world.change_tick())`). -/

def oscript : List OStep → OScript
  | [] => .nil
  | s :: rest => .cons s (oscript rest)

/-- Ghost trace entries for the old executor: `polled coro node` is an actual
poll; `woke coro node writer wasParent` is the moment a write published at
node `writer` resumes the filed change-waiter `coro` whose previously-recorded
node is `node`, with `wasParent` the value of `is_parent writer node` at that
very moment (before the executor adds the edge). -/
inductive OEvent where
  | polled (coro node : Nat)
  | woke (coro node writer : Nat) (wasParent : Bool)
  deriving DecidableEq, Repr

/-- Old `Executor` state (`executor/mod.rs` fields, with ids as plain
integers — the old executor has no generations).  `missing` are the
`(Entity, ComponentId)` pairs the world no longer has; `log` is the ghost
trace, newest last. -/
structure OState where
  coroutines : List (Nat × OScript)
  waiting_on_tick : List Nat
  waiting_on_duration : List (Timer × Nat)
  waiting_on_change : List (Loc × List Nat)
  waiting_on_par_or : List (Nat × List Nat)
  waiting_on_par_and : List (Nat × List Nat)
  is_awaited_by : List (Nat × Nat)
  own : List (Nat × List Nat)
  accesses : List (Nat × List Loc)
  next_id : Nat
  written : List Loc
  missing : List Loc
  log : List OEvent

def OState.empty : OState :=
  { coroutines := [], waiting_on_tick := [], waiting_on_duration := [],
    waiting_on_change := [], waiting_on_par_or := [], waiting_on_par_and := [],
    is_awaited_by := [], own := [], accesses := [], next_id := 0,
    written := [], missing := [], log := [] }

/-- Old `Executor::next_id`. -/
def OState.fresh_id (st : OState) : OState × Nat :=
  ({ st with next_id := st.next_id + 1 }, st.next_id)

/-- Old `Executor::add`: file the new coroutine into the tick queue. -/
def OState.add (st : OState) (script : List OStep) : OState :=
  let (st, id) := st.fresh_id
  { st with coroutines := ainsert id (oscript script) st.coroutines,
            waiting_on_tick := st.waiting_on_tick ++ [id] }

/-- Old `Executor::cancel`: drop the coroutine, cancel everything it awaited
through `ParOr`/`ParAnd`, and cancel whoever was awaiting it. -/
def ocancel : Nat → OState → Nat → OState
  | 0, st, _ => st
  | fuel + 1, st, coroutine =>
    let st := { st with coroutines := aremove coroutine st.coroutines }
    let st :=
      match alookup coroutine st.waiting_on_par_or with
      | some others =>
          let st := { st with waiting_on_par_or := aremove coroutine st.waiting_on_par_or }
          others.foldl (fun s o => ocancel fuel s o) st
      | none => st
    let st :=
      match alookup coroutine st.waiting_on_par_and with
      | some others =>
          let st := { st with waiting_on_par_and := aremove coroutine st.waiting_on_par_and }
          others.foldl (fun s o => ocancel fuel s o) st
      | none => st
    match alookup coroutine st.is_awaited_by with
    | some parent =>
        ocancel fuel { st with is_awaited_by := aremove coroutine st.is_awaited_by } parent
    | none => st

/-- Old `Executor::run` (fuel-indexed; all panics become `Except.error`).
Follows the source order exactly: liveness check, conflict check against the
write table (possibly delaying the coroutine), poll, write publication (each
published write resumes all its change-waiters in the same tick), then
interpretation of the poll result. -/
def orun : Nat → OState → RunCtx.RunContext → Nat → Nat → Bool →
    Except String (OState × RunCtx.RunContext)
  | 0, _, _, _, _, _ => .error "out of fuel"
  | fuel + 1, st, rc, coro, this_node, resumed =>
    if ¬ acontains coro st.coroutines then .ok (st, rc)
    else
      let accesses := alookup coro st.accesses
      let (pt, has_conflicts) :=
        match accesses with
        | some aws =>
            (rc.write_table.conflicts aws).foldl
              (fun (acc : RunCtx.ParentTable × Bool) c =>
                let (pt, has) := acc
                if ¬ resumed ∨ ¬ pt.is_parent c this_node then
                  (pt.add_parent c this_node, true)
                else (pt, has))
              (rc.parent_table, false)
        | none => (rc.parent_table, false)
      let rc := { rc with parent_table := pt }
      if has_conflicts then
        .ok (st, { rc with delayed := rc.delayed ++ [(coro, this_node)] })
      else
        match alookup coro st.coroutines with
        | none => .error "coroutines.get_mut(&coro).unwrap()"
        | some .nil => .error "polled a finished coroutine"
        | some (.cons stp rest) =>
          let st := { st with
            coroutines := ainsert coro rest st.coroutines
            written := st.written ++ stp.writes
            log := st.log ++ [OEvent.polled coro this_node] }
          let next_access := stp.grab
          -- write publication against the *pre-poll* accesses entry
          let pub : Except String (OState × RunCtx.RunContext) :=
            match accesses with
            | none => .ok (st, rc)
            | some aws =>
                aws.foldlM
                  (fun acc w =>
                    let (st, rc) := acc
                    if st.missing.contains w then
                      .error "get_change_ticks_by_id(*cid).unwrap()"
                    else if ¬ st.written.contains w then .ok (st, rc)
                    else
                      let rc := { rc with write_table := rc.write_table.insert w this_node }
                      match alookup w st.waiting_on_change with
                      | none => .ok (st, rc)
                      | some nexts =>
                          let st := { st with waiting_on_change := aremove w st.waiting_on_change }
                          nexts.foldlM
                            (fun acc c =>
                              let (st, rc) := acc
                              match alookup c rc.current_node_map with
                              | some n =>
                                  let wasParent := rc.parent_table.is_parent this_node n
                                  let st := { st with
                                    log := st.log ++ [OEvent.woke c n this_node wasParent] }
                                  let rc := { rc with
                                    current_node_map := aremove c rc.current_node_map
                                    parent_table := rc.parent_table.add_parent this_node n }
                                  orun fuel st rc c n false
                              | none =>
                                  let (pt, node) := rc.parent_table.add_child this_node
                                  orun fuel st { rc with parent_table := pt } c node false)
                            (st, rc))
                  (st, rc)
          match pub with
          | .error e => .error e
          | .ok (st, rc) =>
            match stp.outcome with
            | .done =>
              let st := { st with coroutines := aremove coro st.coroutines }
              match alookup coro st.is_awaited_by with
              | none => .ok (st, rc)
              | some parent =>
                let st := { st with is_awaited_by := aremove coro st.is_awaited_by }
                let st :=
                  match alookup parent st.waiting_on_par_or with
                  | some others =>
                      let st := { st with
                        waiting_on_par_or := aremove parent st.waiting_on_par_or }
                      let st := others.foldl
                        (fun s o =>
                          ocancel fuel { s with is_awaited_by := aremove o s.is_awaited_by } o)
                        st
                      { st with waiting_on_tick := st.waiting_on_tick ++ [parent] }
                  | none => st
                match alookup parent st.waiting_on_par_and with
                | some others =>
                    let others := others.filter (fun c => c ≠ coro)
                    if others.isEmpty then
                      .ok ({ st with
                        waiting_on_tick := st.waiting_on_tick ++ [parent]
                        waiting_on_par_and := aremove parent st.waiting_on_par_and }, rc)
                    else
                      .ok ({ st with
                        waiting_on_par_and := ainsert parent others st.waiting_on_par_and }, rc)
                | none => .ok (st, rc)
            | .foreign =>
              let st :=
                match next_access with
                | some grab => { st with accesses := ainsert coro grab st.accesses }
                | none => st
              let _ := st
              .error "yield_msg.expect(ERR_WRONGAWAIT)"
            | .yield r =>
              let st :=
                match next_access with
                | some grab => { st with accesses := ainsert coro grab st.accesses }
                | none => st
              match r with
              | .Tick => .ok ({ st with waiting_on_tick := st.waiting_on_tick ++ [coro] }, rc)
              | .Duration d =>
                  .ok ({ st with waiting_on_duration := st.waiting_on_duration ++ [(d, coro)] }, rc)
              | .Changed from_ component =>
                  let (pt, next_node) := rc.parent_table.add_child this_node
                  let rc := { rc with parent_table := pt }
                  match rc.can_execute_now next_node (from_, component) with
                  | some writer =>
                      let rc := { rc with
                        parent_table := rc.parent_table.add_parent writer next_node }
                      orun fuel st rc coro next_node false
                  | none =>
                      let entry :=
                        ((alookup (from_, component) st.waiting_on_change).getD []) ++ [coro]
                      let st := { st with
                        waiting_on_change :=
                          ainsert (from_, component) entry st.waiting_on_change }
                      .ok (st, { rc with
                        current_node_map := ainsert coro next_node rc.current_node_map })
              | .ParOr coroutines =>
                  let parent := coro
                  let (st, all_ids) := coroutines.foldl
                    (fun acc c =>
                      let (s, ids) := acc
                      let (s, id) := OState.fresh_id s
                      let s := { s with
                        coroutines := ainsert id c s.coroutines
                        is_awaited_by := ainsert id parent s.is_awaited_by }
                      (s, ids ++ [id]))
                    (st, [])
                  let st := { st with
                    waiting_on_par_or := ainsert parent all_ids st.waiting_on_par_or }
                  all_ids.foldlM
                    (fun acc id =>
                      let (st, rc) := acc
                      let (pt, node) := rc.parent_table.add_child this_node
                      orun fuel st { rc with parent_table := pt } id node false)
                    (st, rc)
              | .ParAnd coroutines =>
                  let parent := coro
                  let (st, all_ids) := coroutines.foldl
                    (fun acc c =>
                      let (s, ids) := acc
                      let (s, id) := OState.fresh_id s
                      let s := { s with
                        coroutines := ainsert id c s.coroutines
                        is_awaited_by := ainsert id parent s.is_awaited_by }
                      (s, ids ++ [id]))
                    (st, [])
                  let st := { st with
                    waiting_on_par_and := ainsert parent all_ids st.waiting_on_par_and }
                  all_ids.foldlM
                    (fun acc id =>
                      let (st, rc) := acc
                      let (pt, node) := rc.parent_table.add_child this_node
                      orun fuel st { rc with parent_table := pt } id node false)
                    (st, rc)

/-- The delayed-coroutine drain at the end of old `Executor::tick`. -/
def odelayedLoop : Nat → OState → RunCtx.RunContext →
    Except String (OState × RunCtx.RunContext)
  | 0, _, _ => .error "out of fuel"
  | fuel + 1, st, rc =>
    match rc.delayed with
    | [] => .ok (st, rc)
    | (coro_id, node) :: rest =>
      match orun fuel st { rc with delayed := rest } coro_id node true with
      | .ok (st, rc) => odelayedLoop fuel st rc
      | .error e => .error e

/-- Old `Executor::tick`: drain the tick queue, advance duration timers, scan
the change queue against the world's native change detection (cancelling
waiters whose source disappeared), then run every root under a fresh
`RunContext` and finally drain the delayed queue.  `external_dirty` is the set
of pairs mutated outside the scheduler since the previous tick.  Also returns
the tick's final `RunContext` for inspection. -/
def OState.tick_full (fuel : Nat) (delta : Nat) (external_dirty : List Loc)
    (st : OState) : Except String (OState × RunCtx.RunContext) :=
  let root := st.waiting_on_tick
  let st := { st with waiting_on_tick := [] }
  let ticked := st.waiting_on_duration.map (fun e => (e.1.tick delta, e.2))
  let root := root ++ (ticked.filter (fun e => e.1.just_finished)).map Prod.snd
  let st := { st with waiting_on_duration := ticked.filter (fun e => ¬ e.1.just_finished) }
  let scan := st.waiting_on_change.foldl
    (fun acc ent =>
      let (keep, roots, despawn) := acc
      let (loc, coros) := ent
      if st.missing.contains loc then (keep, roots, despawn ++ coros)
      else if external_dirty.contains loc then (keep, roots ++ coros, despawn)
      else (keep ++ [ent], roots, despawn))
    (([] : List (Loc × List Nat)), ([] : List Nat), ([] : List Nat))
  let (keep, chroots, despawn) := scan
  let st := { st with waiting_on_change := keep }
  let root := root ++ chroots
  let st := despawn.foldl (fun s c => ocancel fuel s c) st
  let st := { st with written := external_dirty }
  let rc := RunCtx.RunContext.new
  let run := root.foldlM
    (fun acc c =>
      let (st, rc) := acc
      let (pt, node) := rc.parent_table.add_root
      orun fuel st { rc with parent_table := pt } c node false)
    (st, rc)
  match run with
  | .error e => .error e
  | .ok (st, rc) => odelayedLoop fuel st rc

/-- Old `Executor::tick` as Rust exposes it (the `RunContext` is dropped). -/
def OState.tick (fuel : Nat) (delta : Nat) (external_dirty : List Loc)
    (st : OState) : Except String OState :=
  (st.tick_full fuel delta external_dirty).map Prod.fst


/-! ## Claim theorems -/

/-- C9: for every coroutine identity (any 32-bit index and generation),
`Id::from_bits(id.to_bits()) = id` — the 64-bit packing of
`(generation, index)` into high and low halves is invertible. -/
theorem id_bits_roundtrip (g i : Nat) (hg : g < 2 ^ 32) (hi : i < 2 ^ 32) :
    Id.from_bits (Id.to_bits ⟨g, i⟩) = ⟨g, i⟩ := by
  have hor : Id.to_bits ⟨g, i⟩ = 2 ^ 32 * g + i := by
    show g <<< 32 ||| i = _
    rw [Nat.shiftLeft_eq, Nat.mul_comm]
    exact (Nat.mul_add_lt_is_or hi g).symm
  have h2 : (2 : Nat) ^ 32 = 4294967296 := by norm_num
  simp only [Id.from_bits, hor, Nat.shiftRight_eq_div_pow, Id.mk.injEq]
  rw [h2] at hg hi ⊢
  omega

/-- Witness for C9 at a concrete id. -/
theorem id_bits_roundtrip_w :
    Id.from_bits (Id.to_bits ⟨3735928559, 3131746061⟩) = ⟨3735928559, 3131746061⟩ :=
  id_bits_roundtrip 3735928559 3131746061 (by norm_num) (by norm_num)

/-- C8, refuted: an `AwaitFirst` built over a handle whose coroutine has
already finished (its once-channel holds the value) returns `Ready` with that
value on its very first poll after construction — no `Pending`, no recorded
waiting reason (`await_first.rs`, `Running` branch, the
`if let Some(value) = done` return); `AwaitAll` (`rework/all.rs`, `Running`
branch, `Status::Done` arm) does the same.  This contradicts the claim that
every suspension-primitive instance returns `Pending` on its first poll and
never returns `Ready` on its first poll after construction. -/
theorem await_first_ready_on_first_poll :
    (AwaitFirst.new [CoroHandle.Waiting ⟨0, 1⟩ (.ready 7)]).state
      = .Running ∧
    (AwaitFirst.new [CoroHandle.Waiting ⟨0, 1⟩ (.ready 7)]).poll
      = .ok (⟨[.Finish], .Halted⟩, [], .ready 7) ∧
    (AwaitAll.new [CoroHandle.Waiting ⟨0, 1⟩ (.ready 5),
                   CoroHandle.Waiting ⟨0, 2⟩ (.ready 6)]).poll
      = .ok (⟨[.Finish, .Finish], .Halted⟩, [], .ready [5, 6]) :=
  ⟨rfl, rfl, rfl⟩

/-- C8 (amended): every suspension-primitive instance starts in state
`Running`.  `next_tick`, `duration` and `changed` strictly alternate: the
first poll records the waiting reason, returns `Pending` and moves to
`Halted`; the following poll returns `Ready` with the payload (the frame's
delta time for `next_tick`) and moves back to `Running`.  `first` and `all`
follow the same alternation when no awaited coroutine has already finished:
their first poll records `First`/`All` of the still-waiting id bits, returns
`Pending` and moves to `Halted`, and the following poll (a result now being
available) returns `Ready` with the payload and moves back to `Running`; but
when an awaited coroutine has already finished, the first poll after
construction returns `Ready` with its result immediately. -/
theorem suspension_state_machine (i j : Id) (v w dt d e c : Nat)
    (hs : List (CoroHandle Nat)) (hij : i.to_bits ≠ j.to_bits) :
    NextTick.new.state = .Running ∧
    NextTick.new.poll dt = (⟨.Halted⟩, .pending, [.tick]) ∧
    (NextTick.mk .Halted).poll dt = (⟨.Running⟩, .ready dt, []) ∧
    (DurationFuture.new d).state = .Running ∧
    (DurationFuture.new d).poll =
      (⟨d, .Halted⟩, .pending, [.duration (Timer.new d)]) ∧
    (DurationFuture.mk d .Halted).poll = (⟨d, .Running⟩, .ready (), []) ∧
    (Change.new e).state = .Running ∧
    (Change.new e).poll c = (⟨e, .Halted⟩, .pending, [.Changed e c]) ∧
    (Change.mk e .Halted).poll c = (⟨e, .Running⟩, .ready (), []) ∧
    (AwaitFirst.new hs).state = .Running ∧
    (AwaitFirst.new ([CoroHandle.Waiting i .empty, CoroHandle.Waiting j .empty]
        : List (CoroHandle Nat))).poll
      = .ok (⟨[CoroHandle.Waiting i .empty, CoroHandle.Waiting j .empty],
              .Halted⟩,
             [.first [i.to_bits, j.to_bits]], .pending) ∧
    (AwaitFirst.mk [CoroHandle.Waiting i (.ready v),
                    CoroHandle.Waiting j .empty] .Halted).poll
      = .ok (⟨[CoroHandle.Finish, CoroHandle.Waiting j .empty], .Running⟩,
             [], .ready v) ∧
    (AwaitFirst.new [CoroHandle.Waiting i (.ready v),
                     CoroHandle.Waiting j .empty]).poll
      = .ok (⟨[CoroHandle.Finish, CoroHandle.Waiting j .empty], .Halted⟩,
             [], .ready v) ∧
    (AwaitAll.new hs).state = .Running ∧
    (AwaitAll.new ([CoroHandle.Waiting i .empty, CoroHandle.Waiting j .empty]
        : List (CoroHandle Nat))).poll
      = .ok (⟨[CoroHandle.Waiting i .empty, CoroHandle.Waiting j .empty],
              .Halted⟩,
             [.all [i.to_bits, j.to_bits]], .pending) ∧
    (AwaitAll.mk [CoroHandle.Waiting i (.ready v),
                  CoroHandle.Waiting j (.ready w)] .Halted).poll
      = .ok (⟨[CoroHandle.Finish, CoroHandle.Finish], .Running⟩,
             [], .ready [v, w]) ∧
    (AwaitAll.new [CoroHandle.Waiting i (.ready v),
                   CoroHandle.Waiting j (.ready w)]).poll
      = .ok (⟨[CoroHandle.Finish, CoroHandle.Finish], .Halted⟩,
             [], .ready [v, w]) := by
  refine ⟨rfl, rfl, rfl, rfl, rfl, rfl, rfl, rfl, rfl, rfl, ?_, rfl, rfl,
          rfl, ?_, rfl, rfl⟩
  · simp [AwaitFirst.poll, AwaitFirst.new, awaitFirstScan,
      CoroHandle.update_status, nsExtend, nsInsert, Ne.symm hij]
  · simp [AwaitAll.poll, AwaitAll.new, tupleUpdateStatus,
      CoroHandle.update_status, nsExtend, nsInsert, Ne.symm hij]

/-- Witness for C8 at concrete ids, payloads and durations. -/
theorem suspension_state_machine_w :
    Id.to_bits ⟨0, 1⟩ ≠ Id.to_bits ⟨0, 2⟩ ∧
    (NextTick.new.state = .Running ∧
     NextTick.new.poll 9 = (⟨.Halted⟩, .pending, [.tick]) ∧
     (NextTick.mk .Halted).poll 9 = (⟨.Running⟩, .ready 9, []) ∧
     (DurationFuture.new 4).state = .Running ∧
     (DurationFuture.new 4).poll =
       (⟨4, .Halted⟩, .pending, [.duration (Timer.new 4)]) ∧
     (DurationFuture.mk 4 .Halted).poll = (⟨4, .Running⟩, .ready (), []) ∧
     (Change.new 2).state = .Running ∧
     (Change.new 2).poll 3 = (⟨2, .Halted⟩, .pending, [.Changed 2 3]) ∧
     (Change.mk 2 .Halted).poll 3 = (⟨2, .Running⟩, .ready (), []) ∧
     (AwaitFirst.new ([] : List (CoroHandle Nat))).state = .Running ∧
     (AwaitFirst.new ([CoroHandle.Waiting ⟨0, 1⟩ .empty,
                       CoroHandle.Waiting ⟨0, 2⟩ .empty]
         : List (CoroHandle Nat))).poll
       = .ok (⟨[CoroHandle.Waiting ⟨0, 1⟩ .empty,
                CoroHandle.Waiting ⟨0, 2⟩ .empty], .Halted⟩,
              [.first [Id.to_bits ⟨0, 1⟩, Id.to_bits ⟨0, 2⟩]], .pending) ∧
     (AwaitFirst.mk [CoroHandle.Waiting ⟨0, 1⟩ (.ready 5),
                     CoroHandle.Waiting ⟨0, 2⟩ .empty] .Halted).poll
       = .ok (⟨[CoroHandle.Finish, CoroHandle.Waiting ⟨0, 2⟩ .empty],
               .Running⟩, [], .ready 5) ∧
     (AwaitFirst.new [CoroHandle.Waiting ⟨0, 1⟩ (.ready 5),
                      CoroHandle.Waiting ⟨0, 2⟩ .empty]).poll
       = .ok (⟨[CoroHandle.Finish, CoroHandle.Waiting ⟨0, 2⟩ .empty],
               .Halted⟩, [], .ready 5) ∧
     (AwaitAll.new ([] : List (CoroHandle Nat))).state = .Running ∧
     (AwaitAll.new ([CoroHandle.Waiting ⟨0, 1⟩ .empty,
                     CoroHandle.Waiting ⟨0, 2⟩ .empty]
         : List (CoroHandle Nat))).poll
       = .ok (⟨[CoroHandle.Waiting ⟨0, 1⟩ .empty,
                CoroHandle.Waiting ⟨0, 2⟩ .empty], .Halted⟩,
              [.all [Id.to_bits ⟨0, 1⟩, Id.to_bits ⟨0, 2⟩]], .pending) ∧
     (AwaitAll.mk [CoroHandle.Waiting ⟨0, 1⟩ (.ready 5),
                   CoroHandle.Waiting ⟨0, 2⟩ (.ready 6)] .Halted).poll
       = .ok (⟨[CoroHandle.Finish, CoroHandle.Finish], .Running⟩,
              [], .ready [5, 6]) ∧
     (AwaitAll.new [CoroHandle.Waiting ⟨0, 1⟩ (.ready 5),
                    CoroHandle.Waiting ⟨0, 2⟩ (.ready 6)]).poll
       = .ok (⟨[CoroHandle.Finish, CoroHandle.Finish], .Halted⟩,
              [], .ready [5, 6])) :=
  ⟨by decide, suspension_state_machine ⟨0, 1⟩ ⟨0, 2⟩ 5 6 9 4 2 3 [] (by decide)⟩

/-- C2, evaluated at the failing input: on a table holding two root nodes,
the rework `ParentTable::add_child 0` returns node `1` — but stores no new
node (the table still has its two old entries), and the returned node's
stored ancestor set is empty rather than `{0}`, so `is_parent 0 1` is
`false`.  The computed ancestor set is dropped because the Rust function
never pushes it onto `table`. -/
theorem rework_add_child_unstored :
    (let t0 : Rework.ParentTable := ⟨[], []⟩
     let t1 := (t0.add_root ⟨0, 0⟩).1
     let t2 := (t1.add_root ⟨0, 1⟩).1
     let r := t2.add_child 0 ⟨0, 2⟩
     r.2 = 1 ∧ r.1.table = [[], []] ∧ r.1.table.getD r.2 [] = [] ∧
       r.1.is_parent 0 r.2 = false) := by
  decide

/-- Membership in a `SetUsize` after `insert`. -/
theorem nsInsert_mem (x y : Nat) (s : List Nat) :
    y ∈ (nsInsert x s).1 ↔ y ∈ s ∨ y = x := by
  simp only [nsInsert]
  split
  · next hc =>
      rw [List.elem_iff] at hc
      constructor
      · exact Or.inl
      · rintro (h | rfl)
        · exact h
        · exact hc
  · simp

/-- A list extended at the end, read back at the old length. -/
theorem getD_append_self (l : List (List Nat)) (v : List Nat) :
    (l ++ [v]).getD l.length [] = v := by
  rw [List.getD_eq_getElem?_getD, List.getElem?_append_right (Nat.le_refl _)]
  simp

/-- The `run_ctx.rs` `ParentTable::add_child` (old executor) does satisfy the
specified contract: the returned node is freshly stored, and its ancestor set
is the parent's ancestor set together with the parent itself. -/
theorem runctx_add_child_spec (pt : RunCtx.ParentTable) (parent x : Nat) :
    (x ∈ ((pt.add_child parent).1.table.getD (pt.add_child parent).2 []) ↔
      (x ∈ pt.table.getD parent [] ∨ x = parent)) ∧
    (pt.add_child parent).2 = pt.table.length ∧
    (pt.add_child parent).1.table.length = pt.table.length + 1 := by
  unfold RunCtx.ParentTable.add_child
  refine ⟨?_, by simp, by simp⟩
  simp only [List.length_append, List.length_cons, List.length_nil,
    Nat.add_sub_cancel]
  rw [getD_append_self]
  exact nsInsert_mem parent x _


/-! ### Concrete scenarios -/

/-- The pair written first by the writer coroutine below (entity 1,
component 1): the waiter waits on it across ticks. -/
def locQ : Loc := (1, 1)

/-- The pair written second (entity 2, component 2): the waiter starts waiting
on it while the writer's publication pass is already under way. -/
def locP : Loc := (2, 2)

/-- The waiter `W` (old executor): await changed `locQ`, then await changed
`locP`, then finish. -/
def scrW : List OStep :=
  [.mk [] none (.yield (.Changed 1 1)),
   .mk [] none (.yield (.Changed 2 2)),
   .mk [] none .done]

/-- The writer `X` (old executor): first resume declares (grabs) exclusive
writes to `locQ` and `locP` (one `GrabAccess` per entity, so
`GrabReason::writes()` lists them in this order); the second resume performs
both writes. -/
def scrX : List OStep :=
  [.mk [] (some [locQ, locP]) (.yield .Tick),
   .mk [locQ, locP] (some [locQ, locP]) (.yield .Tick),
   .mk [] none .done]

/-- C1 scenario start state: `W` is id 0, `X` is id 1. -/
def c1s0 : OState := (OState.empty.add scrW).add scrX

/-- Two ticks of the C1 scenario (no external writes), keeping the second
tick's `RunContext`. -/
def c1run : Except String (OState × RunCtx.RunContext) :=
  (c1s0.tick 1000 1 []).bind (OState.tick_full 1000 1 [])

/-- Sibling `a` of the C3 scenario: bump the counter every tick, forever
(long enough for the scenario). -/
def scrA : RScript :=
  [bumpStep .tick, bumpStep .tick, bumpStep .tick, bumpStep .tick, bumpStep .tick]

/-- Sibling `b`: finish on the second resume with result 10. -/
def scrB : RScript := [step .tick, step (.done 10)]

/-- Parent `p`: spawn `a` and `b` (owned, started now, with result channels —
`scope.start`), await `first([a, b])`, then finish.  With the deterministic
allocator, `p, a, b` get indices `0, 1, 2`. -/
def scrP : RScript :=
  [.mk 0 [(true, true, true, scrA), (true, true, true, scrB)] (.first [1, 2]),
   step (.done 99)]

/-- C3 scenario start state. -/
def c3s0 : RState := RState.empty.add_function_coroutine ⟨[], scrP⟩

/-- Two ticks of the C3 scenario, keeping the second tick's parent table. -/
def c3run : Except String (RState × Rework.ParentTable) :=
  (c3s0.tick 1000 1).bind (RState.tick_full 1000 1)

/-- Five ticks of the C3 scenario. -/
def c3run5 : Except String RState := c3s0.ticks 1000 [1, 1, 1, 1, 1]

/-- C1, evaluated at the failing input.  Tick 1: the waiter (id 0) files
itself on `locQ`; the writer (id 1) declares its accesses.  Tick 2: the writer
is the only root (node 0), and its publication pass first publishes `locQ` —
waking the waiter at fresh child node 1 (`woke` is not logged for waiters
without a previously-recorded node), under which the waiter files itself on
`locP` at node 2, a node that has node 0 among its ancestors (final table:
node 2's stored set is `[0, 1]`, and only the `woke` step adds node 0 edges to
it — it was created containing 0) — and then publishes `locP`, which resumes
the waiter at its previously-recorded node 2 even though the writing node 0
is already an ancestor of it: the trace records `woke 0 2 0 true` (waiter 0,
node 2, writer node 0, `is_parent 0 2 = true` at that moment) followed by
`polled 0 2`.  The claim requires that no resumption happen in this case. -/
theorem change_wakeup_ancestor_violation :
    c1run.map (fun r => (r.1.log, r.2.parent_table.table, r.2.current_node_map))
      = .ok ([.polled 0 0, .polled 1 2, .polled 1 0, .polled 0 1,
              .woke 0 2 0 true, .polled 0 2],
             [[], [0], [0, 1]], []) := by
  rfl

/-- C3, evaluated at the failing input.  When `b` (id index 2) finishes on
tick 2 while awaited via `First`, the executor does cancel the sibling `a`
(id index 1: it is polled on ticks 1 and 2 only — three further ticks leave
the log unchanged — and its entry is gone), does deliver the result 10 into
`b`'s once-channel, and does push the parent (index 0) onto the same tick's
ready list — but at node 1, which is `b`'s *own* root node: the tick's parent
table still holds exactly the two root nodes `[[], []]`, no child node of
node 1 was ever stored (`add_child` drops the set it computes), and the
parent's node 1 does not have `b`'s node 1 as an ancestor. -/
theorem first_completion_node_unstored :
    (c3run.map (fun r =>
        (r.1.log, r.1.coroutines.map Prod.fst, r.1.results, r.2.table,
         alookup 0 r.2.node_map, r.2.is_parent 1 1))
      = .ok ([(⟨0, 0⟩, 0), (⟨0, 1⟩, 0), (⟨0, 2⟩, 0),
              (⟨0, 1⟩, 0), (⟨0, 2⟩, 1), (⟨0, 0⟩, 1)],
             [], [(⟨0, 2⟩, 10)], [[], []], some 1, false)) ∧
    c3run5.map RState.log = c3run.map (fun r => r.1.log) := by
  exact ⟨rfl, rfl⟩

/-- C7: a coroutine that suspends without recording a `WaitingReason` — user
code awaited a future outside the library — makes `tick` panic (the yield
channel's `unwrap`/`expect`), in the rework executor and in the old one. -/
theorem foreign_await_panics (b δ : Nat) (ws : List Loc)
    (g : Option (List Loc)) (ed : List Loc) (restR : RScript)
    (restO : List OStep) :
    (RState.empty.add_function_coroutine
        ⟨[], .mk b [] .foreign :: restR⟩).tick 1000 δ
      = .error "yield_channel.try_recv_sync().unwrap()" ∧
    (OState.empty.add (.mk ws g .foreign :: restO)).tick 1000 δ ed
      = .error "yield_msg.expect(ERR_WRONGAWAIT)" :=
  ⟨rfl, rfl⟩


/-! ### C4: tick-wait fairness -/

/-- The spec's scenario: increment a counter then await next-tick, three
iterations, then finish. -/
def c4script : RScript :=
  [bumpStep .tick, bumpStep .tick, bumpStep .tick, step (.done 0)]

def c4w : Id := ⟨0, 0⟩

/-- The allocator after the first flush of the scenario. -/
def c4ids : Ids := { meta := [0], pending := [], free_cursor := 0, len := 1 }

def c4base : RState := { RState.empty with ids := c4ids }

/-- The executor state of the C4 scenario after `k` ticks (constant from the
fourth tick on). -/
def c4state : Nat → RState
  | 0 => RState.empty.add_function_coroutine ⟨[], c4script⟩
  | 1 => { c4base with
      coroutines := [(c4w, ([bumpStep .tick, bumpStep .tick, step (.done 0)], false))],
      waiting_on_tick := [c4w], counter := 1, log := [(c4w, 0)] }
  | 2 => { c4base with
      coroutines := [(c4w, ([bumpStep .tick, step (.done 0)], false))],
      waiting_on_tick := [c4w], counter := 2, log := [(c4w, 0), (c4w, 0)] }
  | 3 => { c4base with
      coroutines := [(c4w, ([step (.done 0)], false))],
      waiting_on_tick := [c4w], counter := 3, log := [(c4w, 0), (c4w, 0), (c4w, 0)] }
  | _ + 4 => { c4base with
      counter := 3, log := [(c4w, 0), (c4w, 0), (c4w, 0), (c4w, 0)] }

/-- One tick of the C4 scenario advances the state counter by one step,
whatever the frame's delta time. -/
theorem c4_tick (k δ : Nat) :
    (c4state k).tick 1000 δ = .ok (c4state (k + 1)) := by
  match k with
  | 0 => rfl
  | 1 => rfl
  | 2 => rfl
  | 3 => rfl
  | _ + 4 => rfl

/-- Running any list of ticks from any point of the C4 scenario. -/
theorem c4_run (ds : List Nat) : ∀ k,
    (c4state k).ticks 1000 ds = .ok (c4state (k + ds.length)) := by
  induction ds with
  | nil => intro k; rfl
  | cons d rest ih =>
      intro k
      show (((c4state k).tick 1000 d).bind fun s => RState.ticks 1000 rest s)
        = _
      rw [c4_tick k d]
      show (c4state (k + 1)).ticks 1000 rest
        = .ok (c4state (k + (rest.length + 1)))
      rw [show k + (rest.length + 1) = (k + 1) + rest.length by omega]
      exact ih (k + 1)

/-- Observables of the C4 states. -/
theorem c4_obs (k : Nat) :
    (c4state k).counter = min k 3 ∧ (c4state k).log.length = min k 4 := by
  match k with
  | 0 => exact ⟨rfl, rfl⟩
  | 1 => exact ⟨rfl, rfl⟩
  | 2 => exact ⟨rfl, rfl⟩
  | 3 => exact ⟨rfl, rfl⟩
  | n + 4 =>
      constructor
      · show 3 = min (n + 4) 3
        omega
      · show 4 = min (n + 4) 4
        omega

/-- C4: a coroutine that increments a counter then awaits the next-tick
primitive, looping 3 times, is resumed exactly once per `tick` call and never
twice within one tick: after the ticks in `ds` (any count, any delta times)
the counter reads `min ds.length 3`, and the coroutine has been polled
exactly `min ds.length 4` times (the fourth poll only consumes the loop's
exit, after which the state is final). -/
theorem tick_wait_fairness (ds : List Nat) :
    ((RState.empty.add_function_coroutine ⟨[], c4script⟩).ticks 1000 ds).map
        (fun s => (s.counter, s.log.length))
      = .ok (min ds.length 3, min ds.length 4) := by
  have h := c4_run ds 0
  have h0 : c4state 0 = RState.empty.add_function_coroutine ⟨[], c4script⟩ := rfl
  rw [h0] at h
  rw [h]
  have := c4_obs (0 + ds.length)
  simp only [Except.map, Nat.zero_add] at *
  rw [this.1, this.2]


/-! ### C5: duration accuracy -/

/-- Await a duration of `d`, then finish. -/
def c5script (d : Nat) : RScript := [step (.duration d), step (.done 0)]

def c5s0 (d : Nat) : RState :=
  RState.empty.add_function_coroutine ⟨[], c5script d⟩

/-- The C5 scenario while a timer `t` is pending. -/
def c5waitT (t : Timer) : RState :=
  { c4base with
    coroutines := [(c4w, ([step (.done 0)], false))],
    waiting_on_time := [(c4w, t)],
    log := [(c4w, 0)] }

/-- The C5 scenario while the timer is pending: `e` time units have
accumulated since the suspension. -/
def c5wait (d e : Nat) : RState := c5waitT ⟨d, e, false, false⟩

/-- The C5 scenario once the waiter has fired and finished. -/
def c5end : RState := { c4base with log := [(c4w, 0), (c4w, 0)] }

/-- One tick against a pending timer: if the advanced timer just finished,
the waiter fires, is polled, finishes and is removed; otherwise only the
timer advances. -/
theorem c5_tick_timer (t : Timer) (δ : Nat) :
    (c5waitT t).tick 1000 δ =
      (if (t.tick δ).just then .ok c5end else .ok (c5waitT (t.tick δ))) := by
  by_cases hj : (t.tick δ).just
  · rw [if_pos hj]
    unfold RState.tick RState.tick_full c5waitT
    simp only [List.map_cons, List.map_nil, List.filter_cons, List.filter_nil,
      Timer.just_finished, hj]
    rfl
  · rw [if_neg hj]
    unfold RState.tick RState.tick_full c5waitT
    simp only [List.map_cons, List.map_nil, List.filter_cons, List.filter_nil,
      Timer.just_finished, Bool.eq_false_iff.mpr hj]
    rfl

/-- Spawn tick of the C5 scenario: the coroutine is polled once and files its
timer, with no elapsed time yet. -/
theorem c5_tick_spawn (d δ : Nat) :
    (c5s0 d).tick 1000 δ = .ok (c5wait d 0) := rfl

/-- A tick whose delta leaves the accumulated time short of `d` only advances
the timer: the waiter is not polled. -/
theorem c5_tick_wait (d e δ : Nat) (h : e + δ < d) :
    (c5wait d e).tick 1000 δ = .ok (c5wait d (e + δ)) := by
  have ht : Timer.tick ⟨d, e, false, false⟩ δ = ⟨d, e + δ, false, false⟩ := by
    simp [Timer.tick]
    omega
  show (c5waitT ⟨d, e, false, false⟩).tick 1000 δ = _
  rw [c5_tick_timer, ht]
  rfl

/-- A tick whose delta takes the accumulated time to `d` or beyond fires the
timer: the waiter is polled (exactly once) and finishes. -/
theorem c5_tick_fire (d e δ : Nat) (h : d ≤ e + δ) :
    (c5wait d e).tick 1000 δ = .ok c5end := by
  have ht : Timer.tick ⟨d, e, false, false⟩ δ = ⟨d, min d (e + δ), true, true⟩ := by
    simp [Timer.tick]
    omega
  show (c5waitT ⟨d, e, false, false⟩).tick 1000 δ = _
  rw [c5_tick_timer, ht]
  rfl

/-- The finished C5 state is a fixpoint of `tick`. -/
theorem c5_end_run (ds : List Nat) : c5end.ticks 1000 ds = .ok c5end := by
  induction ds with
  | nil => rfl
  | cons δ rest ih =>
      show ((c5end.tick 1000 δ).bind fun s => RState.ticks 1000 rest s) = _
      rw [show c5end.tick 1000 δ = .ok c5end from rfl]
      exact ih

/-- Master induction for C5: from a pending timer with `e` accumulated (and
not yet fired: `d = 0 ∨ e < d`), the waiter's total poll count after the
ticks in `ds` is 2 exactly when some tick has brought the accumulated time to
`d` — i.e. when `ds` is non-empty and `e + ds.sum` reaches `d` — and 1
otherwise. -/
theorem c5_master (d : Nat) : ∀ (ds : List Nat) (e : Nat), d = 0 ∨ e < d →
    ((c5wait d e).ticks 1000 ds).map (fun s => s.log.length)
      = .ok (if 0 < ds.length ∧ d ≤ e + ds.sum then 2 else 1) := by
  intro ds
  induction ds with
  | nil =>
      intro e _
      rfl
  | cons δ rest ih =>
      intro e h
      show ((((c5wait d e).tick 1000 δ).bind fun s => RState.ticks 1000 rest s).map
        (fun s => s.log.length)) = _
      by_cases hf : d ≤ e + δ
      · rw [c5_tick_fire d e δ hf]
        show (c5end.ticks 1000 rest).map (fun s => s.log.length) = _
        rw [c5_end_run rest]
        have hc : (0 < (δ :: rest).length ∧ d ≤ e + (δ :: rest).sum) := by
          simp only [List.length_cons, List.sum_cons]
          exact ⟨by omega, by omega⟩
        rw [if_pos hc]
        rfl
      · have hlt : e + δ < d := by omega
        rw [c5_tick_wait d e δ hlt]
        show ((c5wait d (e + δ)).ticks 1000 rest).map (fun s => s.log.length) = _
        rw [ih (e + δ) (Or.inr hlt)]
        have hiff : (0 < rest.length ∧ d ≤ (e + δ) + rest.sum) ↔
            (0 < (δ :: rest).length ∧ d ≤ e + (δ :: rest).sum) := by
          simp only [List.length_cons, List.sum_cons]
          constructor
          · rintro ⟨-, h2⟩
            exact ⟨by omega, by omega⟩
          · rintro ⟨-, h2⟩
            refine ⟨?_, by omega⟩
            by_contra h0
            have hnil : rest = [] := List.eq_nil_of_length_eq_zero (by omega)
            rw [hnil] at h2
            simp at h2
            omega
        by_cases hc : 0 < rest.length ∧ d ≤ (e + δ) + rest.sum
        · rw [if_pos hc, if_pos (hiff.mp hc)]
        · rw [if_neg hc, if_neg (fun hx => hc (hiff.mpr hx))]

/-- C5: a coroutine awaiting duration `d` is polled at its spawn tick, and is
then not resumed on any tick at which the accumulated delta time since it
suspended is below `d`; it is resumed exactly once, on the first tick at
which the accumulated time reaches `d` — so after the spawn tick and the
ticks in `ds`, its total poll count is 2 precisely when `ds` contains a tick
reaching the duration (`0 < ds.length ∧ d ≤ ds.sum`) and 1 otherwise. -/
theorem duration_accuracy (d δ0 : Nat) (ds : List Nat) :
    ((RState.empty.add_function_coroutine ⟨[], c5script d⟩).ticks 1000
        (δ0 :: ds)).map (fun s => s.log.length)
      = .ok (if 0 < ds.length ∧ d ≤ ds.sum then 2 else 1) := by
  show (((c5s0 d).tick 1000 δ0).bind fun s => RState.ticks 1000 ds s).map
      (fun s => s.log.length) = _
  rw [c5_tick_spawn d δ0]
  show ((c5wait d 0).ticks 1000 ds).map (fun s => s.log.length) = _
  rw [c5_master d ds 0 (by omega)]
  rw [Nat.zero_add]


/-! ### C6: construction-time conflicts -/

/-- `c` is among the declared reads of `s`. -/
def CoroAccess.hasRead (a : CoroAccess) (s : SourceId) (c : Nat) : Prop :=
  c ∈ (alookup s a.reads).getD []

/-- `c` is among the declared writes of `s`. -/
def CoroAccess.hasWrite (a : CoroAccess) (s : SourceId) (c : Nat) : Prop :=
  c ∈ (alookup s a.writes).getD []

/-- The second component of `nsInsert`. -/
theorem nsInsert_snd (x : Nat) (s : List Nat) :
    (nsInsert x s).2 = ¬ s.contains x := by
  simp only [nsInsert]
  split <;> simp_all

theorem alookup_cons {κ α : Type} [DecidableEq κ] (k' : κ) (e : κ × α)
    (l : List (κ × α)) :
    alookup k' (e :: l) = if k' = e.1 then some e.2 else alookup k' l := rfl

theorem alookup_aremove {κ α : Type} [DecidableEq κ] (k k' : κ)
    (m : List (κ × α)) :
    alookup k' (aremove k m) = if k' = k then none else alookup k' m := by
  induction m with
  | nil => simp only [aremove, List.filter_nil, alookup]; split <;> rfl
  | cons e rest ih =>
      simp only [aremove, List.filter_cons] at *
      by_cases he : e.1 = k
      · rw [if_neg (by simp [he])]
        rw [ih]
        by_cases hk : k' = k
        · simp [hk]
        · rw [if_neg hk, if_neg hk, alookup_cons,
            if_neg (by rw [← he] at hk; exact hk)]
      · rw [if_pos (by simp [he])]
        rw [alookup_cons]
        by_cases hk : k' = e.1
        · rw [if_pos hk, if_neg (by rw [hk]; exact he), alookup_cons, if_pos hk]
        · rw [if_neg hk, ih]
          by_cases hk2 : k' = k
          · simp [hk2]
          · rw [if_neg hk2, if_neg hk2, alookup_cons, if_neg hk]

theorem alookup_ainsert {κ α : Type} [DecidableEq κ] (k k' : κ) (v : α)
    (m : List (κ × α)) :
    alookup k' (ainsert k v m) = if k' = k then some v else alookup k' m := by
  simp only [ainsert, alookup]
  by_cases h : k' = k
  · simp [h]
  · simp [h, alookup_aremove]

theorem add_read_fails (a : CoroAccess) (s : SourceId) (c : Nat)
    (h : a.hasWrite s c) : (a.add_read s c).2 = false := by
  unfold CoroAccess.hasWrite at h
  unfold CoroAccess.add_read
  cases hw : alookup s a.writes with
  | none => simp [hw] at h
  | some l =>
      rw [hw] at h
      simp only [Option.getD_some] at h
      have hcb : l.contains c = true := by simpa using h
      simp only [hcb, if_true]

theorem add_write_fails (a : CoroAccess) (s : SourceId) (c : Nat)
    (h : a.hasRead s c) : (a.add_write s c).2 = false := by
  unfold CoroAccess.hasRead at h
  unfold CoroAccess.add_write
  cases hw : alookup s a.reads with
  | none => simp [hw] at h
  | some l =>
      rw [hw] at h
      simp only [Option.getD_some] at h
      have hcb : l.contains c = true := by simpa using h
      simp only [hcb, if_true]

theorem add_read_gains (a : CoroAccess) (s : SourceId) (c : Nat)
    (h : (a.add_read s c).2 = true) : ((a.add_read s c).1).hasRead s c := by
  unfold CoroAccess.add_read at h ⊢
  unfold CoroAccess.hasRead
  cases hw : alookup s a.writes with
  | none => simp [alookup_ainsert, nsInsert_mem]
  | some l =>
      rw [hw] at h
      by_cases hc : c ∈ l
      · simp [hc] at h
      · have hcb : l.contains c = false := by simpa using hc
        simp only [hcb, Bool.false_eq_true, if_false, alookup_ainsert]
        simp [nsInsert_mem]

theorem add_write_gains (a : CoroAccess) (s : SourceId) (c : Nat)
    (h : (a.add_write s c).2 = true) : ((a.add_write s c).1).hasWrite s c := by
  unfold CoroAccess.add_write at h ⊢
  unfold CoroAccess.hasWrite
  cases hw : alookup s a.reads with
  | none => simp [alookup_ainsert, nsInsert_mem]
  | some l =>
      rw [hw] at h
      by_cases hc : c ∈ l
      · simp [hc] at h
      · have hcb : l.contains c = false := by simpa using hc
        simp only [hcb, Bool.false_eq_true, if_false, alookup_ainsert]
        simp [nsInsert_mem]

theorem add_read_keeps_read (a : CoroAccess) (s s' : SourceId) (c c' : Nat)
    (h : a.hasRead s c) : ((a.add_read s' c').1).hasRead s c := by
  unfold CoroAccess.hasRead at h ⊢
  unfold CoroAccess.add_read
  cases hw : alookup s' a.writes with
  | none =>
      simp only [alookup_ainsert]
      by_cases hs : s = s'
      · subst hs; simp [nsInsert_mem]; exact Or.inl h
      · simp [hs]; exact h
  | some l =>
      by_cases hc : c' ∈ l
      · have hcb : l.contains c' = true := by simpa using hc
        simp only [hcb, if_true]
        exact h
      · have hcb : l.contains c' = false := by simpa using hc
        simp only [hcb, Bool.false_eq_true, if_false, alookup_ainsert]
        by_cases hs : s = s'
        · subst hs; simp [nsInsert_mem]; exact Or.inl h
        · simp [hs]; exact h

theorem add_write_keeps_read (a : CoroAccess) (s s' : SourceId) (c c' : Nat)
    (h : a.hasRead s c) : ((a.add_write s' c').1).hasRead s c := by
  unfold CoroAccess.hasRead at h ⊢
  unfold CoroAccess.add_write
  cases hw : alookup s' a.reads with
  | none => exact h
  | some l =>
      by_cases hc : c' ∈ l
      · have hcb : l.contains c' = true := by simpa using hc
        simp only [hcb, if_true]
        exact h
      · have hcb : l.contains c' = false := by simpa using hc
        simp only [hcb, Bool.false_eq_true, if_false]
        exact h

theorem add_write_keeps_write (a : CoroAccess) (s s' : SourceId) (c c' : Nat)
    (h : a.hasWrite s c) : ((a.add_write s' c').1).hasWrite s c := by
  unfold CoroAccess.hasWrite at h ⊢
  unfold CoroAccess.add_write
  cases hw : alookup s' a.reads with
  | none =>
      simp only [alookup_ainsert]
      by_cases hs : s = s'
      · subst hs; simp [nsInsert_mem]; exact Or.inl h
      · simp [hs]; exact h
  | some l =>
      by_cases hc : c' ∈ l
      · have hcb : l.contains c' = true := by simpa using hc
        simp only [hcb, if_true]
        exact h
      · have hcb : l.contains c' = false := by simpa using hc
        simp only [hcb, Bool.false_eq_true, if_false, alookup_ainsert]
        by_cases hs : s = s'
        · subst hs; simp [nsInsert_mem]; exact Or.inl h
        · simp [hs]; exact h

theorem add_read_keeps_write (a : CoroAccess) (s s' : SourceId) (c c' : Nat)
    (h : a.hasWrite s c) : ((a.add_read s' c').1).hasWrite s c := by
  unfold CoroAccess.hasWrite at h ⊢
  unfold CoroAccess.add_read
  cases hw : alookup s' a.writes with
  | none => exact h
  | some l =>
      by_cases hc : c' ∈ l
      · have hcb : l.contains c' = true := by simpa using hc
        simp only [hcb, if_true]
        exact h
      · have hcb : l.contains c' = false := by simpa using hc
        simp only [hcb, Bool.false_eq_true, if_false]
        exact h

/-- A successful parameter init preserves every already-declared access. -/
theorem init_keeps (p : ParamSpec) (a a' : CoroAccess) (s : SourceId) (c : Nat)
    (h : p.init a = some a') :
    (a.hasRead s c → a'.hasRead s c) ∧ (a.hasWrite s c → a'.hasWrite s c) := by
  cases p with
  | read s' c' =>
      simp only [ParamSpec.init] at h
      by_cases hok : (a.add_read s' c').2 = true
      · rw [if_pos hok] at h
        injection h with h
        subst h
        exact ⟨add_read_keeps_read a s s' c c', add_read_keeps_write a s s' c c'⟩
      · rw [if_neg hok] at h
        cases h
  | write s' c' =>
      simp only [ParamSpec.init] at h
      by_cases hok : (a.add_write s' c').2 = true
      · rw [if_pos hok] at h
        injection h with h
        subst h
        exact ⟨add_write_keeps_read a s s' c c', add_write_keeps_write a s s' c c'⟩
      · rw [if_neg hok] at h
        cases h
  | missing => cases h

/-- If some declared write of `(s, c)` appears after `(s, c)` is already a
declared read, initialization fails. -/
theorem paramsInit_fails_write (s : SourceId) (c : Nat) : ∀ (l : List ParamSpec)
    (a : CoroAccess), a.hasRead s c → ParamSpec.write s c ∈ l →
    paramsInit l a = none := by
  intro l
  induction l with
  | nil => intro a _ hm; cases hm
  | cons p rest ih =>
      intro a hr hm
      simp only [paramsInit]
      cases hp : p.init a with
      | none => rfl
      | some a' =>
          rcases List.mem_cons.mp hm with rfl | hm'
          · exfalso
            simp only [ParamSpec.init] at hp
            rw [add_write_fails a s c hr] at hp
            simp at hp
          · exact ih a' ((init_keeps p a a' s c hp).1 hr) hm'

/-- Symmetrically, a declared read after a declared write fails. -/
theorem paramsInit_fails_read (s : SourceId) (c : Nat) : ∀ (l : List ParamSpec)
    (a : CoroAccess), a.hasWrite s c → ParamSpec.read s c ∈ l →
    paramsInit l a = none := by
  intro l
  induction l with
  | nil => intro a _ hm; cases hm
  | cons p rest ih =>
      intro a hw hm
      simp only [paramsInit]
      cases hp : p.init a with
      | none => rfl
      | some a' =>
          rcases List.mem_cons.mp hm with rfl | hm'
          · exfalso
            simp only [ParamSpec.init] at hp
            rw [add_read_fails a s c hw] at hp
            simp at hp
          · exact ih a' ((init_keeps p a a' s c hp).2 hw) hm'

/-- A conflicting or missing declaration anywhere in the list makes the whole
fold fail, from any starting access set. -/
theorem paramsInit_conflict (s : SourceId) (c : Nat) : ∀ (l : List ParamSpec)
    (a : CoroAccess),
    ((ParamSpec.read s c ∈ l ∧ ParamSpec.write s c ∈ l) ∨ ParamSpec.missing ∈ l) →
    paramsInit l a = none := by
  intro l
  induction l with
  | nil =>
      intro a h
      rcases h with ⟨hm, -⟩ | hm <;> cases hm
  | cons p rest ih =>
      intro a h
      rcases h with ⟨hr, hw⟩ | hm
      · unfold paramsInit
        cases hp : p.init a with
        | none => rfl
        | some a' =>
            rcases List.mem_cons.mp hr with rfl | hr'
            · rcases List.mem_cons.mp hw with heq | hw'
              · cases heq
              · have : a'.hasRead s c := by
                  simp only [ParamSpec.init] at hp
                  by_cases hok : (a.add_read s c).2 = true
                  · rw [if_pos hok] at hp
                    injection hp with hp
                    subst hp
                    exact add_read_gains a s c hok
                  · rw [if_neg hok] at hp; cases hp
                exact paramsInit_fails_write s c rest a' this hw'
            · rcases List.mem_cons.mp hw with rfl | hw'
              · have : a'.hasWrite s c := by
                  simp only [ParamSpec.init] at hp
                  by_cases hok : (a.add_write s c).2 = true
                  · rw [if_pos hok] at hp
                    injection hp with hp
                    subst hp
                    exact add_write_gains a s c hok
                  · rw [if_neg hok] at hp; cases hp
                exact paramsInit_fails_read s c rest a' this hr'
              · exact ih a' (Or.inl ⟨hr', hw'⟩)
      · unfold paramsInit
        cases hp : p.init a with
        | none => rfl
        | some a' =>
            rcases List.mem_cons.mp hm with rfl | hm'
            · cases hp
            · exact ih a' (Or.inr hm')

/-- C6: if any declared parameter conflicts — the list declares both a read
and an exclusive write of the same `(source, field)`, or a declared
component/owner does not exist — then `FunctionCoroutine::new` returns no
coroutine, and the spawn leaves the executor's live set and tick queue
exactly as they were, with no panic (`add_function_coroutine` is total); the
check happens in the construction fold itself. -/
theorem construction_conflict (ps : List ParamSpec) (scr : RScript)
    (st : RState) (s : SourceId) (c : Nat)
    (h : (ParamSpec.read s c ∈ ps ∧ ParamSpec.write s c ∈ ps) ∨
      ParamSpec.missing ∈ ps) :
    FunctionCoroutine.new ⟨ps, scr⟩ = none ∧
    (st.add_function_coroutine ⟨ps, scr⟩).coroutines = st.coroutines ∧
    (st.add_function_coroutine ⟨ps, scr⟩).waiting_on_tick = st.waiting_on_tick := by
  have hnone : FunctionCoroutine.new ⟨ps, scr⟩ = none := by
    unfold FunctionCoroutine.new
    rw [paramsInit_conflict s c ps CoroAccess.default h]
    rfl
  refine ⟨hnone, ?_, ?_⟩ <;>
    · unfold RState.add_function_coroutine
      rw [hnone]

/-- Witness for C6: a parameter list reading then exclusively writing the same
component of the same entity produces no coroutine and leaves the executor
untouched. -/
theorem construction_conflict_w :
    FunctionCoroutine.new
        ⟨[ParamSpec.read (.entity 5) 7, ParamSpec.write (.entity 5) 7], []⟩
      = none ∧
    (RState.empty.add_function_coroutine
        ⟨[ParamSpec.read (.entity 5) 7, ParamSpec.write (.entity 5) 7], []⟩).coroutines
      = RState.empty.coroutines ∧
    (RState.empty.add_function_coroutine
        ⟨[ParamSpec.read (.entity 5) 7, ParamSpec.write (.entity 5) 7], []⟩).waiting_on_tick
      = RState.empty.waiting_on_tick :=
  construction_conflict _ _ _ (.entity 5) 7
    (Or.inl ⟨List.mem_cons_self _ _, List.mem_cons_of_mem _ (List.mem_cons_self _ _)⟩)


/-! ### C10: cancellation cascade through First/All groups

The cascade of rework `Executor::cancel` is unbounded recursion through the
executor maps, and with `scope.start` the maps are cyclic (the parent
scope-owns the members, each member is awaited by the parent), so a run
re-enters `cancel` on ids it has already visited.  The development below
characterises every successful run at once: a `CancelChain` records that a
cascade fragment only ever removes map entries, and that whenever it consumes
an entry it has also cancelled whatever the entry pointed at. -/

theorem acontains_aremove_self {κ α : Type} [DecidableEq κ] (k : κ)
    (m : List (κ × α)) : acontains k (aremove k m) = false := by
  simp [acontains, alookup_aremove]

theorem alookup_aremove_self {κ α : Type} [DecidableEq κ] (k : κ)
    (m : List (κ × α)) : alookup k (aremove k m) = none := by
  simp [alookup_aremove]

theorem aremove_keeps_gone {κ α : Type} [DecidableEq κ] (k x : κ)
    (m : List (κ × α)) (h : acontains x m = false) :
    acontains x (aremove k m) = false := by
  simp only [acontains, alookup_aremove]
  by_cases hk : x = k
  · simp [hk]
  · rw [if_neg hk]
    exact h

theorem aremove_keeps_none {κ α : Type} [DecidableEq κ] (k x : κ)
    (m : List (κ × α)) (h : alookup x m = none) :
    alookup x (aremove k m) = none := by
  rw [alookup_aremove]
  by_cases hk : x = k
  · simp [hk]
  · rw [if_neg hk]
    exact h

theorem alookup_aremove_ne {κ α : Type} [DecidableEq κ] {k x : κ}
    (m : List (κ × α)) (h : ¬ x = k) :
    alookup x (aremove k m) = alookup x m := by
  rw [alookup_aremove, if_neg h]

/-- A coroutine id whose cancellation has fully run: no longer live, and all
of its executor map entries consumed. -/
def RState.purged (s : RState) (x : Id) : Prop :=
  acontains x s.coroutines = false ∧
  alookup x s.scope_ownership = none ∧
  alookup x s.is_awaited_by = none ∧
  alookup x s.waiting_on_first = none ∧
  alookup x s.waiting_on_all = none

/-- What any fragment of a successful `cancel` cascade does to the executor
maps: it only removes (absence of a coroutine and absence of a map entry are
preserved), and whenever it consumes a map entry it has also cancelled what
the entry pointed at — the owned ids, the awaiting parent (fully), or the
awaited group members. -/
structure CancelChain (s s' : RState) : Prop where
  gone : ∀ x : Id, acontains x s.coroutines = false →
      acontains x s'.coroutines = false
  scope_none : ∀ k : Id, alookup k s.scope_ownership = none →
      alookup k s'.scope_ownership = none
  aw_none : ∀ k : Id, alookup k s.is_awaited_by = none →
      alookup k s'.is_awaited_by = none
  first_none : ∀ k : Id, alookup k s.waiting_on_first = none →
      alookup k s'.waiting_on_first = none
  all_none : ∀ k : Id, alookup k s.waiting_on_all = none →
      alookup k s'.waiting_on_all = none
  scope_track : ∀ (k : Id) (os : List Nat),
      alookup k s.scope_ownership = some os →
      alookup k s'.scope_ownership = some os ∨
        ∀ o ∈ os, acontains (Id.from_bits o) s'.coroutines = false
  aw_track : ∀ k p : Id, alookup k s.is_awaited_by = some p →
      alookup k s'.is_awaited_by = some p ∨ s'.purged p
  first_track : ∀ (k : Id) (os : List Nat),
      alookup k s.waiting_on_first = some os →
      alookup k s'.waiting_on_first = some os ∨
        ∀ o ∈ os, acontains (Id.from_bits o) s'.coroutines = false
  all_track : ∀ (k : Id) (os : List Nat),
      alookup k s.waiting_on_all = some os →
      alookup k s'.waiting_on_all = some os ∨
        ∀ o ∈ os, acontains (Id.from_bits o) s'.coroutines = false

theorem CancelChain.refl (s : RState) : CancelChain s s :=
  ⟨fun _ h => h, fun _ h => h, fun _ h => h, fun _ h => h, fun _ h => h,
   fun _ _ h => Or.inl h, fun _ _ h => Or.inl h, fun _ _ h => Or.inl h,
   fun _ _ h => Or.inl h⟩

theorem RState.purged_mono {s s' : RState} (h : CancelChain s s') {x : Id}
    (hp : s.purged x) : s'.purged x :=
  ⟨h.gone x hp.1, h.scope_none x hp.2.1, h.aw_none x hp.2.2.1,
   h.first_none x hp.2.2.2.1, h.all_none x hp.2.2.2.2⟩

theorem CancelChain.comp {s t u : RState} (h1 : CancelChain s t)
    (h2 : CancelChain t u) : CancelChain s u := by
  refine ⟨fun x h => h2.gone x (h1.gone x h),
          fun k h => h2.scope_none k (h1.scope_none k h),
          fun k h => h2.aw_none k (h1.aw_none k h),
          fun k h => h2.first_none k (h1.first_none k h),
          fun k h => h2.all_none k (h1.all_none k h), ?_, ?_, ?_, ?_⟩
  · intro k os h
    rcases h1.scope_track k os h with hp | hm
    · exact h2.scope_track k os hp
    · exact Or.inr (fun o ho => h2.gone _ (hm o ho))
  · intro k p h
    rcases h1.aw_track k p h with hp | hm
    · exact h2.aw_track k p hp
    · exact Or.inr (RState.purged_mono h2 hm)
  · intro k os h
    rcases h1.first_track k os h with hp | hm
    · exact h2.first_track k os hp
    · exact Or.inr (fun o ho => h2.gone _ (hm o ho))
  · intro k os h
    rcases h1.all_track k os h with hp | hm
    · exact h2.all_track k os hp
    · exact Or.inr (fun o ho => h2.gone _ (hm o ho))

/-- Full specification of one successful `cancel(c)` call: a cascade fragment
that has moreover purged `c` itself. -/
structure CancelSpec (s : RState) (c : Id) (s' : RState) : Prop where
  chain : CancelChain s s'
  purged_self : s'.purged c

theorem except_bind_ok {α β : Type} (a : α) (f : α → Except String β) :
    (Except.ok a >>= f) = f a := rfl

theorem except_bind_error {α β : Type} (e : String)
    (f : α → Except String β) :
    ((Except.error e : Except String α) >>= f) = .error e := rfl

/-- A fold of successful `cancel` calls over a list of ids is a cascade
fragment that purges every listed id. -/
theorem foldlM_cancel_spec (recurse : RState → Id → Except String RState)
    (hrec : ∀ s c s', recurse s c = .ok s' → CancelSpec s c s') :
    ∀ (l : List Nat) (s s' : RState),
      l.foldlM (fun s o => recurse s (Id.from_bits o)) s = .ok s' →
      CancelChain s s' ∧ ∀ o ∈ l, s'.purged (Id.from_bits o) := by
  intro l
  induction l with
  | nil =>
      intro s s' h
      rw [List.foldlM_nil] at h
      have h' : (Except.ok s : Except String RState) = .ok s' := h
      injection h' with h'
      subst h'
      exact ⟨CancelChain.refl s, fun o ho => absurd ho (List.not_mem_nil o)⟩
  | cons o rest ih =>
      intro s s' h
      rw [List.foldlM_cons] at h
      cases hf : recurse s (Id.from_bits o) with
      | error e =>
          rw [hf, except_bind_error] at h
          exact Except.noConfusion h
      | ok s1 =>
          rw [hf, except_bind_ok] at h
          obtain ⟨chain2, hmem⟩ := ih s1 s' h
          have spec1 := hrec s (Id.from_bits o) s1 hf
          refine ⟨spec1.chain.comp chain2, ?_⟩
          intro o' ho'
          rcases List.mem_cons.mp ho' with rfl | ho'
          · exact RState.purged_mono chain2 spec1.purged_self
          · exact hmem o' ho'

/-- Stage spec for `cancelOwned`: a cascade fragment, after which the
cancelled id's scope entry is gone (and everything it owned with it). -/
theorem cancelOwned_spec (recurse : RState → Id → Except String RState)
    (hrec : ∀ s c s', recurse s c = .ok s' → CancelSpec s c s')
    (st : RState) (c : Id) (st' : RState)
    (h : cancelOwned recurse st c = .ok st') :
    CancelChain st st' ∧ alookup c st'.scope_ownership = none := by
  rcases hl : alookup c st.scope_ownership with _ | owned
  · simp only [cancelOwned, hl] at h
    injection h with h
    subst h
    exact ⟨CancelChain.refl st, hl⟩
  · simp only [cancelOwned, hl] at h
    obtain ⟨chain2, hmem⟩ := foldlM_cancel_spec recurse hrec owned _ st' h
    refine ⟨⟨fun x hx => chain2.gone x hx,
            fun k hk => chain2.scope_none k (aremove_keeps_none c k _ hk),
            fun k hk => chain2.aw_none k hk,
            fun k hk => chain2.first_none k hk,
            fun k hk => chain2.all_none k hk, ?_,
            fun k p hk => chain2.aw_track k p hk,
            fun k os hk => chain2.first_track k os hk,
            fun k os hk => chain2.all_track k os hk⟩,
           chain2.scope_none c (alookup_aremove_self c _)⟩
    intro k os hk
    by_cases hkc : k = c
    · subst hkc
      rw [hl] at hk
      injection hk with hk
      subst hk
      exact Or.inr (fun o ho => (hmem o ho).1)
    · exact chain2.scope_track k os (by rw [alookup_aremove_ne _ hkc]; exact hk)

/-- Stage spec for `cancelAwaitedBy`: a cascade fragment, after which the
cancelled id's awaited-by entry is gone (and the awaiting parent purged). -/
theorem cancelAwaitedBy_spec (recurse : RState → Id → Except String RState)
    (hrec : ∀ s c s', recurse s c = .ok s' → CancelSpec s c s')
    (st : RState) (c : Id) (st' : RState)
    (h : cancelAwaitedBy recurse st c = .ok st') :
    CancelChain st st' ∧ alookup c st'.is_awaited_by = none := by
  rcases hl : alookup c st.is_awaited_by with _ | parent
  · simp only [cancelAwaitedBy, hl] at h
    injection h with h
    subst h
    exact ⟨CancelChain.refl st, hl⟩
  · simp only [cancelAwaitedBy, hl] at h
    have spec := hrec _ parent st' h
    refine ⟨⟨fun x hx => spec.chain.gone x hx,
            fun k hk => spec.chain.scope_none k hk,
            fun k hk => spec.chain.aw_none k (aremove_keeps_none c k _ hk),
            fun k hk => spec.chain.first_none k hk,
            fun k hk => spec.chain.all_none k hk,
            fun k os hk => spec.chain.scope_track k os hk, ?_,
            fun k os hk => spec.chain.first_track k os hk,
            fun k os hk => spec.chain.all_track k os hk⟩,
           spec.chain.aw_none c (alookup_aremove_self c _)⟩
    intro k p hk
    by_cases hkc : k = c
    · subst hkc
      rw [hl] at hk
      injection hk with hk
      subst hk
      exact Or.inr spec.purged_self
    · exact spec.chain.aw_track k p (by rw [alookup_aremove_ne _ hkc]; exact hk)

/-- Stage spec for `cancelWaitFirst`: a cascade fragment, after which the
cancelled id's `First` entry is gone (and every group member with it). -/
theorem cancelWaitFirst_spec (recurse : RState → Id → Except String RState)
    (hrec : ∀ s c s', recurse s c = .ok s' → CancelSpec s c s')
    (st : RState) (c : Id) (st' : RState)
    (h : cancelWaitFirst recurse st c = .ok st') :
    CancelChain st st' ∧ alookup c st'.waiting_on_first = none := by
  rcases hl : alookup c st.waiting_on_first with _ | others
  · simp only [cancelWaitFirst, hl] at h
    injection h with h
    subst h
    exact ⟨CancelChain.refl st, hl⟩
  · simp only [cancelWaitFirst, hl] at h
    obtain ⟨chain2, hmem⟩ := foldlM_cancel_spec recurse hrec others _ st' h
    refine ⟨⟨fun x hx => chain2.gone x hx,
            fun k hk => chain2.scope_none k hk,
            fun k hk => chain2.aw_none k hk,
            fun k hk => chain2.first_none k (aremove_keeps_none c k _ hk),
            fun k hk => chain2.all_none k hk,
            fun k os hk => chain2.scope_track k os hk,
            fun k p hk => chain2.aw_track k p hk, ?_,
            fun k os hk => chain2.all_track k os hk⟩,
           chain2.first_none c (alookup_aremove_self c _)⟩
    intro k os hk
    by_cases hkc : k = c
    · subst hkc
      rw [hl] at hk
      injection hk with hk
      subst hk
      exact Or.inr (fun o ho => (hmem o ho).1)
    · exact chain2.first_track k os (by rw [alookup_aremove_ne _ hkc]; exact hk)

/-- Stage spec for `cancelWaitAll`: a cascade fragment, after which the
cancelled id's `All` entry is gone (and every group member with it). -/
theorem cancelWaitAll_spec (recurse : RState → Id → Except String RState)
    (hrec : ∀ s c s', recurse s c = .ok s' → CancelSpec s c s')
    (st : RState) (c : Id) (st' : RState)
    (h : cancelWaitAll recurse st c = .ok st') :
    CancelChain st st' ∧ alookup c st'.waiting_on_all = none := by
  rcases hl : alookup c st.waiting_on_all with _ | others
  · simp only [cancelWaitAll, hl] at h
    injection h with h
    subst h
    exact ⟨CancelChain.refl st, hl⟩
  · simp only [cancelWaitAll, hl] at h
    obtain ⟨chain2, hmem⟩ := foldlM_cancel_spec recurse hrec others _ st' h
    refine ⟨⟨fun x hx => chain2.gone x hx,
            fun k hk => chain2.scope_none k hk,
            fun k hk => chain2.aw_none k hk,
            fun k hk => chain2.first_none k hk,
            fun k hk => chain2.all_none k (aremove_keeps_none c k _ hk),
            fun k os hk => chain2.scope_track k os hk,
            fun k p hk => chain2.aw_track k p hk,
            fun k os hk => chain2.first_track k os hk, ?_⟩,
           chain2.all_none c (alookup_aremove_self c _)⟩
    intro k os hk
    by_cases hkc : k = c
    · subst hkc
      rw [hl] at hk
      injection hk with hk
      subst hk
      exact Or.inr (fun o ho => (hmem o ho).1)
    · exact chain2.all_track k os (by rw [alookup_aremove_ne _ hkc]; exact hk)

/-- The entry stage of `cancelStep` (free the id, drop the coroutine) is a
cascade fragment. -/
theorem cancelBase_chain (st : RState) (c : Id) (i : Ids) :
    CancelChain st { st with ids := i, coroutines := aremove c st.coroutines } :=
  ⟨fun x hx => aremove_keeps_gone c x _ hx,
   fun _ hk => hk, fun _ hk => hk, fun _ hk => hk, fun _ hk => hk,
   fun _ _ hk => Or.inl hk, fun _ _ hk => Or.inl hk, fun _ _ hk => Or.inl hk,
   fun _ _ hk => Or.inl hk⟩

/-- One successful `cancel` body, with every recursive call successful and
specified, is itself specified: the cancelled id is purged, and only
removals happen. -/
theorem cancelStep_spec (recurse : RState → Id → Except String RState)
    (hrec : ∀ s c s', recurse s c = .ok s' → CancelSpec s c s')
    (st : RState) (c : Id) (st' : RState)
    (h : cancelStep recurse st c = .ok st') : CancelSpec st c st' := by
  cases hfr : st.ids.free c with
  | error e =>
      simp only [cancelStep, hfr] at h
      exact Except.noConfusion h
  | ok fr =>
    cases h1 : cancelOwned recurse
        { st with ids := fr.1, coroutines := aremove c st.coroutines } c with
    | error e =>
        simp only [cancelStep, hfr, h1] at h
        exact Except.noConfusion h
    | ok s1 =>
      cases h2 : cancelAwaitedBy recurse s1 c with
      | error e =>
          simp only [cancelStep, hfr, h1, h2] at h
          exact Except.noConfusion h
      | ok s2 =>
        cases h3 : cancelWaitFirst recurse s2 c with
        | error e =>
            simp only [cancelStep, hfr, h1, h2, h3] at h
            exact Except.noConfusion h
        | ok s3 =>
          simp only [cancelStep, hfr, h1, h2, h3] at h
          obtain ⟨chain1, hscopeN⟩ := cancelOwned_spec recurse hrec _ c s1 h1
          obtain ⟨chain2, hawN⟩ := cancelAwaitedBy_spec recurse hrec s1 c s2 h2
          obtain ⟨chain3, hfirstN⟩ :=
            cancelWaitFirst_spec recurse hrec s2 c s3 h3
          obtain ⟨chain4, hallN⟩ := cancelWaitAll_spec recurse hrec s3 c st' h
          have chain0 := cancelBase_chain st c fr.1
          have tail1 := chain2.comp (chain3.comp chain4)
          refine ⟨chain0.comp (chain1.comp tail1), ?_, ?_, ?_, ?_, ?_⟩
          · exact (chain1.comp tail1).gone c (acontains_aremove_self c _)
          · exact tail1.scope_none c hscopeN
          · exact (chain3.comp chain4).aw_none c hawN
          · exact chain4.first_none c hfirstN
          · exact hallN

/-- Every successful run of the fuelled `cancel` is specified (fuel
exhaustion is an error, so success means the Rust recursion ran to the
end). -/
theorem cancelFuel_spec : ∀ (fuel : Nat) (s : RState) (c : Id) (s' : RState),
    cancelFuel fuel s c = .ok s' → CancelSpec s c s' := by
  intro fuel
  induction fuel with
  | zero =>
      intro s c s' h
      exact Except.noConfusion h
  | succ n ih =>
      intro s c s' h
      exact cancelStep_spec (cancelFuel n) ih s c s' h

/-- C10: whenever rework `cancel(id)` completes (an `.ok` run of the fuelled
model is exactly a terminating, panic-free run of the unbounded Rust
recursion) on a coroutine `id` that some parent `p` is awaiting —
`is_awaited_by` does not record whether the wait is a hard dependency, so the
parent cascade is unconditional — the awaiting parent is cancelled too, and
the cascade tears down the parent's entire waiting group, whether `First` or
`All`: `id`, `p`, every group member, everything the parent's scope owns
(e.g. the members it `scope.start`ed), and any coroutine awaiting `p` in
turn, are all removed from the live set. -/
theorem cancel_group_teardown (fuel : Nat) (st st' : RState) (id p : Id)
    (others : List Nat)
    (hrun : cancelFuel fuel st id = .ok st')
    (haw : alookup id st.is_awaited_by = some p)
    (hgroup : alookup p st.waiting_on_first = some others ∨
              alookup p st.waiting_on_all = some others) :
    acontains id st'.coroutines = false ∧
    acontains p st'.coroutines = false ∧
    (∀ o ∈ others, acontains (Id.from_bits o) st'.coroutines = false) ∧
    (∀ owned, alookup p st.scope_ownership = some owned →
      ∀ o ∈ owned, acontains (Id.from_bits o) st'.coroutines = false) ∧
    (∀ gp, alookup p st.is_awaited_by = some gp →
      acontains gp st'.coroutines = false) := by
  have spec := cancelFuel_spec fuel st id st' hrun
  have hp : st'.purged p := by
    rcases spec.chain.aw_track id p haw with hpers | hpu
    · rw [spec.purged_self.2.2.1] at hpers
      exact Option.noConfusion hpers
    · exact hpu
  refine ⟨spec.purged_self.1, hp.1, ?_, ?_, ?_⟩
  · rcases hgroup with hg | hg
    · rcases spec.chain.first_track p others hg with hpers | hm
      · rw [hp.2.2.2.1] at hpers
        exact Option.noConfusion hpers
      · exact hm
    · rcases spec.chain.all_track p others hg with hpers | hm
      · rw [hp.2.2.2.2] at hpers
        exact Option.noConfusion hpers
      · exact hm
  · intro owned howned
    rcases spec.chain.scope_track p owned howned with hpers | hm
    · rw [hp.2.1] at hpers
      exact Option.noConfusion hpers
    · exact hm
  · intro gp hgp
    rcases spec.chain.aw_track p gp hgp with hpers | hpu
    · rw [hp.2.2.1] at hpers
      exact Option.noConfusion hpers
    · exact hpu.1

/-- The standard `scope.start` group state: parent `(0,0)` scope-owns members
`(0,1)` and `(0,2)` (bits 1 and 2), awaits `first` of them, each member is
awaited by the parent, and the allocator has handed out exactly these three
ids (`meta = [0,0,0]`, all generations current, so every free in the cascade
is in bounds). -/
def c10st : RState :=
  { RState.empty with
    ids := { meta := [0, 0, 0], pending := [], free_cursor := 0, len := 3 },
    coroutines := [(⟨0, 1⟩, ([], false)), (⟨0, 2⟩, ([], false)),
                   (⟨0, 0⟩, ([], false))],
    scope_ownership := [(⟨0, 0⟩, [1, 2])],
    is_awaited_by := [(⟨0, 1⟩, ⟨0, 0⟩), (⟨0, 2⟩, ⟨0, 0⟩)],
    waiting_on_first := [(⟨0, 0⟩, [1, 2])] }

/-- The state after cancelling member `(0,1)` of the `c10st` group. -/
def c10out : RState :=
  ((cancelFuel 6 c10st ⟨0, 1⟩).toOption).getD RState.empty

/-- Witness for C10: cancelling the single member `(0,1)` completes, and
tears down the member, the parent, every group member, and everything the
parent's scope owned. -/
theorem cancel_group_teardown_w :
    acontains ⟨0, 1⟩ c10out.coroutines = false ∧
    acontains ⟨0, 0⟩ c10out.coroutines = false ∧
    (∀ o ∈ [1, 2], acontains (Id.from_bits o) c10out.coroutines = false) ∧
    (∀ owned, alookup ⟨0, 0⟩ c10st.scope_ownership = some owned →
      ∀ o ∈ owned, acontains (Id.from_bits o) c10out.coroutines = false) ∧
    (∀ gp, alookup ⟨0, 0⟩ c10st.is_awaited_by = some gp →
      acontains gp c10out.coroutines = false) :=
  cancel_group_teardown 6 c10st c10out ⟨0, 1⟩ ⟨0, 0⟩ [1, 2] (by rfl) (by rfl)
    (Or.inl (by rfl))

end Corentin
